import Mathlib

/-!
Verification development for zrepl's `daemon/logging/trace/trace.go`.

The Go package maintains an in-memory tree of trace nodes (tasks and
spans).  We embed it shallowly: the heap of `*traceNode` pointers becomes
an arena (`List TraceNode`) indexed by natural numbers (a pointer is the
index at which the node was appended), `time.Now()` becomes a logical
clock incremented on every read, panics become `Except.error`, and the
external sinks (chrometrace writers, prometheus gauge) become fields of
the explicit state (`events`, `activeTasks`).

Code that the repository keeps in other files (the unique concurrent task
namer, `genID`, the context plumbing) is modelled from the spec; each such
definition carries a doc comment saying so.
-/

/-- Shallow embedding of Go's `traceNode` struct (trace.go lines 122-135).
`endedAt = none` models the zero `time.Time` (i.e. `endedAt.IsZero()`);
timestamps are logical-clock values.  The Go field `annotation` is named
`annot` here.  `parentTask`, `parentSpan` and `activeChildSpan` hold arena
indices in place of pointers. -/
structure TraceNode where
  id : String
  annot : String
  parentTask : Option Nat
  activeChildTasks : Int
  parentSpan : Option Nat
  activeChildSpan : Option Nat
  startedAt : Nat
  endedAt : Option Nat
deriving DecidableEq

/-- Events emitted to the external chrometrace sink
(`chrometraceBeginTask` / `chrometraceEndTask` / `chrometraceBeginSpan` /
`chrometraceEndSpan`), recorded by arena index. -/
inductive SinkEvent where
  | beginTask (n : Nat)
  | endTask (n : Nat)
  | beginSpan (n : Nat)
  | endSpan (n : Nat)
deriving DecidableEq

/-- The panics of trace.go, one constructor per panic site:
`ErrTaskStillHasActiveChildTasks` (line 221), the negative-count impl
error (line 233), `ErrAlreadyActiveChildSpan` (line 284),
the activeChildSpan-changed impl error (line 297),
`ErrSpanStillHasActiveChildSpan` (line 302), and the
"must be called from within a task" panic (line 268). -/
inductive TraceError where
  | TaskStillHasActiveChildTasks
  | NegativeActiveChildTasks
  | AlreadyActiveChildSpan
  | ActiveChildSpanChanged
  | SpanStillHasActiveChildSpan
  | NotInsideTask
deriving DecidableEq

/-- Update the node at index `i` (no-op when out of range), the embedding
of a field assignment through a `*traceNode` pointer. -/
def setNodeF (nodes : List TraceNode) (i : Nat) (f : TraceNode → TraceNode) : List TraceNode :=
  match nodes, i with
  | [], _ => []
  | nd :: rest, 0 => f nd :: rest
  | nd :: rest, j+1 => nd :: setNodeF rest j f

theorem length_setNodeF (nodes : List TraceNode) (i : Nat) (f : TraceNode → TraceNode) :
    (setNodeF nodes i f).length = nodes.length := by
  induction nodes generalizing i with
  | nil => simp [setNodeF]
  | cons nd rest ih =>
    cases i with
    | zero => simp [setNodeF]
    | succ j => simp [setNodeF, ih]

theorem getElem?_setNodeF_self (nodes : List TraceNode) (i : Nat) (f : TraceNode → TraceNode) :
    (setNodeF nodes i f)[i]? = (nodes[i]?).map f := by
  induction nodes generalizing i with
  | nil => simp [setNodeF]
  | cons nd rest ih =>
    cases i with
    | zero => simp [setNodeF]
    | succ j => simpa [setNodeF] using ih j

theorem getElem?_setNodeF_ne (nodes : List TraceNode) (i j : Nat) (f : TraceNode → TraceNode)
    (h : j ≠ i) : (setNodeF nodes i f)[j]? = nodes[j]? := by
  induction nodes generalizing i j with
  | nil => simp [setNodeF]
  | cons nd rest ih =>
    cases i with
    | zero =>
      cases j with
      | zero => exact absurd rfl h
      | succ j' => simp [setNodeF]
    | succ i' =>
      cases j with
      | zero => simp [setNodeF]
      | succ j' =>
        simpa [setNodeF] using ih i' j' (fun hc => h (by simpa using congrArg Nat.succ hc))

theorem getElem?_append_lt {α : Type} (l : List α) (x : α) (j : Nat)
    (h : j < l.length) : (l ++ [x])[j]? = l[j]? := by
  induction l generalizing j with
  | nil => simp at h
  | cons a rest ih =>
    cases j with
    | zero => simp
    | succ j' =>
      simp only [List.cons_append, List.getElem?_cons_succ]
      exact ih j' (by simp at h; omega)

theorem getElem?_append_len {α : Type} (l : List α) (x : α) :
    (l ++ [x])[l.length]? = some x := by
  induction l with
  | nil => simp
  | cons a rest ih => simpa using ih

/-- Modelled from the spec: the Unique Namer's allocation table
(`uniqueConcurrentTaskNamer`, kept in `unique_concurrent_task_namer.go`
which is not part of the given sources).  Per base name it stores the
list of currently allocated suffix indices. -/
def Namer : Type := List (String × List Nat)

instance : DecidableEq Namer := by
  unfold Namer
  infer_instance

/-- Suffixes currently allocated for `name` (empty when the namer has no
entry for `name`). -/
def namerUsed (namer : Namer) (name : String) : List Nat :=
  match List.find? (fun e => e.1 == name) namer with
  | some e => e.2
  | none => []

/-- Replace (or create) the suffix list stored for `name`. -/
def namerSet (namer : Namer) (name : String) (used : List Nat) : Namer :=
  match List.find? (fun e => e.1 == name) namer with
  | some _ => List.map (fun e => if e.1 == name then (name, used) else e) namer
  | none => (name, used) :: namer

/-- Largest allocated suffix (0 when none are allocated). -/
def maxUsed (used : List Nat) : Nat := List.foldr max 0 used

/-- Scan upward from `n` for the first suffix not in `used`; `fuel`
bounds the scan and is chosen large enough that it never runs out. -/
def scanFree (used : List Nat) : Nat → Nat → Nat
  | 0, n => n
  | fuel+1, n => if n ∈ used then scanFree used fuel (n+1) else n

/-- Modelled from the spec: "picks the lowest unused non-negative integer
suffix for `name`".  A linear scan from 0; `maxUsed used + 1` steps
always suffice because `maxUsed used + 1` itself is unallocated. -/
def lowestUnused (used : List Nat) : Nat := scanFree used (maxUsed used + 1) 0

/-- Modelled from the spec: `Allocate(name) -> (displayName, release)` of
the Unique Namer, i.e. `taskNamer.UniqueConcurrentTaskName` whose
implementation is not part of the given sources.  Returns the display
name (`name` combined with the chosen suffix, using the `#NUM` format the
package docs describe), the chosen suffix, and the updated table. -/
def uniqueConcurrentTaskName (namer : Namer) (name : String) : String × Nat × Namer :=
  let used := namerUsed namer name
  let s := lowestUnused used
  (name ++ "#" ++ Nat.repr s, s, namerSet namer name (s :: used))

/-- Modelled from the spec: `release()` frees the suffix for future
reuse. -/
def namerRelease (namer : Namer) (name : String) (s : Nat) : Namer :=
  namerSet namer name (List.erase (namerUsed namer name) s)

/-- Modelled from the spec: `genID` (kept in a file not part of the given
sources) returns a process-unique opaque identifier; we model it as the
decimal rendering of a counter carried in the state. -/
def genID (n : Nat) : String := Nat.repr n

/-- The explicit state of the embedded program: the node arena, the
logical clock backing `time.Now()`, the `genID` counter, the
`zrepl_trace_active_tasks` prometheus gauge, the namer table, the events
emitted to the chrometrace sink, and `doneEnv`, which records per task
node the `(taskName, suffix)` pair captured by the Go `endTaskFunc`
closure for its `taskNameDone()` call. -/
structure TraceState where
  nodes : List TraceNode
  clock : Nat
  nextId : Nat
  activeTasks : Int
  namer : Namer
  events : List SinkEvent
  doneEnv : List (Nat × String × Nat)
deriving DecidableEq

/-- The state at process start: empty arena, no active tasks. -/
def initState : TraceState :=
  { nodes := [], clock := 0, nextId := 1, activeTasks := 0,
    namer := [], events := [], doneEnv := [] }

/-- The candidate parent task read from the context at the start of
`WithTask` (trace.go lines 160-169): the node attached to the context,
or, when that node is a span, the span's enclosing task. -/
def candidateParent (nodes : List TraceNode) (ctx : Option Nat) : Option Nat :=
  match ctx with
  | none => none
  | some i =>
    match nodes[i]? with
    | none => none
    | some nd => if nd.parentSpan.isSome then nd.parentTask else some i

/-- The ancestor walk of `WithTask` (trace.go lines 170-182): follow
`parentTask` links while the current candidate has already ended.  `fuel`
bounds the recursion; on a well-formed arena (parent indices strictly
below child indices) a fuel of `nodes.length` never runs out. -/
def findLiveParent (nodes : List TraceNode) : Nat → Option Nat → Option Nat
  | _, none => none
  | 0, some i => some i
  | fuel+1, some i =>
    match nodes[i]? with
    | none => some i
    | some nd => if nd.endedAt.isSome then findLiveParent nodes fuel nd.parentTask else some i

/-- The chain of `parentTask` links starting at the given node
(inclusive), in child-to-root order.  This is the `tasks` slice of
`TaskAndSpanStack` (trace.go lines 360-363) and the search space of the
spec's "nearest ancestor task that was not yet ended". -/
def ancestorChain (nodes : List TraceNode) : Nat → Option Nat → List Nat
  | 0, _ => []
  | _+1, none => []
  | fuel+1, some i =>
    i :: (match nodes[i]? with
          | none => []
          | some nd => ancestorChain nodes fuel nd.parentTask)

/-- Whether the node at index `j` exists and has not ended. -/
def liveAt (nodes : List TraceNode) (j : Nat) : Bool :=
  match nodes[j]? with
  | some nd => nd.endedAt.isNone
  | none => false

/-- Spec characterization of the resolved parent: the first not-yet-ended
node on the `parentTask` chain starting at the candidate. -/
def nearestLiveAncestor (nodes : List TraceNode) (start : Option Nat) : Option Nat :=
  List.find? (liveAt nodes) (ancestorChain nodes nodes.length start)

/-- Shallow embedding of `WithTask` (trace.go lines 158-208): resolve the
nearest live ancestor task, draw a disambiguated name from the namer,
append the new task node, bump the ancestor's `activeChildTasks`, emit
the begin event and increment the gauge.  Returns the new state and the
arena index of the new node (the value carried by the returned context). -/
def withTask (st : TraceState) (ctx : Option Nat) (taskName : String) : TraceState × Nat :=
  let parentTask := findLiveParent st.nodes st.nodes.length (candidateParent st.nodes ctx)
  let alloc := uniqueConcurrentTaskName st.namer taskName
  let thisIdx := st.nodes.length
  let this : TraceNode :=
    { id := genID st.nextId, annot := alloc.1,
      parentTask := parentTask, activeChildTasks := 0,
      parentSpan := none, activeChildSpan := none,
      startedAt := st.clock, endedAt := none }
  let nodes1 := st.nodes ++ [this]
  let nodes2 :=
    match parentTask with
    | some p => setNodeF nodes1 p (fun nd => { nd with activeChildTasks := nd.activeChildTasks + 1 })
    | none => nodes1
  ({ st with
      nodes := nodes2,
      clock := st.clock + 1,
      nextId := st.nextId + 1,
      namer := alloc.2.2,
      events := st.events ++ [SinkEvent.beginTask thisIdx],
      activeTasks := st.activeTasks + 1,
      doneEnv := st.doneEnv ++ [(thisIdx, taskName, alloc.2.1)] },
   thisIdx)

/-- Shallow embedding of the `endTaskFunc` closure returned by `WithTask`
(trace.go lines 210-247), invoked for the task node at `thisIdx`.  A
closure only exists for task nodes created by `WithTask`, so invalid
indices and span nodes yield the unchanged state.  Panics are `.error`;
a panic aborts the process, so no post-panic state is modelled. -/
def endTask (st : TraceState) (thisIdx : Nat) : Except TraceError TraceState :=
  match st.nodes[thisIdx]? with
  | none => .ok st
  | some this =>
    if this.parentSpan.isSome then .ok st
    else if this.activeChildTasks ≠ 0 then .error .TaskStillHasActiveChildTasks
    else if this.endedAt.isSome then .ok st
    else
      let nodes1 := setNodeF st.nodes thisIdx (fun nd => { nd with endedAt := some st.clock })
      match this.parentTask with
      | some p =>
        let nodes2 := setNodeF nodes1 p (fun nd => { nd with activeChildTasks := nd.activeChildTasks - 1 })
        if (nodes2[p]?).any (fun pn => decide (pn.activeChildTasks < 0)) then
          .error .NegativeActiveChildTasks
        else
          .ok { st with
                  nodes := nodes2,
                  clock := st.clock + 1,
                  activeTasks := st.activeTasks - 1,
                  events := st.events ++ [SinkEvent.endTask thisIdx],
                  namer :=
                    match List.find? (fun e => e.1 == thisIdx) st.doneEnv with
                    | some e => namerRelease st.namer e.2.1 e.2.2
                    | none => st.namer }
      | none =>
        .ok { st with
                nodes := nodes1,
                clock := st.clock + 1,
                activeTasks := st.activeTasks - 1,
                events := st.events ++ [SinkEvent.endTask thisIdx],
                namer :=
                  match List.find? (fun e => e.1 == thisIdx) st.doneEnv with
                  | some e => namerRelease st.namer e.2.1 e.2.2
                  | none => st.namer }

/-- Shallow embedding of `WithSpan` (trace.go lines 257-291): requires a
node attached to the context (else the "must be called from within a
task" panic); the enclosing task is the attached node itself when it is a
task node, else that node's `parentTask`; fails when the attached node
already has an active child span; otherwise appends the span node, points
the parent's `activeChildSpan` at it and emits the begin event. -/
def withSpan (st : TraceState) (ctx : Option Nat) (annot : String) :
    Except TraceError (TraceState × Nat) :=
  match ctx with
  | none => .error .NotInsideTask
  | some c =>
    match st.nodes[c]? with
    | none => .error .NotInsideTask
    | some parentSpanNode =>
      let parentTask : Option Nat :=
        if parentSpanNode.parentSpan.isNone then some c else parentSpanNode.parentTask
      if parentSpanNode.activeChildSpan.isSome then .error .AlreadyActiveChildSpan
      else
        let thisIdx := st.nodes.length
        let this : TraceNode :=
          { id := genID st.nextId, annot := annot,
            parentTask := parentTask, activeChildTasks := 0,
            parentSpan := some c, activeChildSpan := none,
            startedAt := st.clock, endedAt := none }
        let nodes1 := st.nodes ++ [this]
        let nodes2 := setNodeF nodes1 c (fun nd => { nd with activeChildSpan := some thisIdx })
        .ok ({ st with
                nodes := nodes2,
                clock := st.clock + 1,
                nextId := st.nextId + 1,
                events := st.events ++ [SinkEvent.beginSpan thisIdx] },
             thisIdx)

/-- Shallow embedding of the `endTaskFunc` closure returned by `WithSpan`
(trace.go lines 293-314), invoked for the span node at `thisIdx`.  A
closure only exists for span nodes created by `WithSpan` (which always
have `parentSpan` set to a node that existed at creation), so invalid
indices and task nodes yield the unchanged state.  The checks mirror the
source order: the activeChildSpan-changed impl panic, then the
still-has-active-child panic, then the idempotent early return. -/
def endSpan (st : TraceState) (thisIdx : Nat) : Except TraceError TraceState :=
  match st.nodes[thisIdx]? with
  | none => .ok st
  | some this =>
    match this.parentSpan with
    | none => .ok st
    | some p =>
      match st.nodes[p]? with
      | none => .ok st
      | some parentSpanNode =>
        if parentSpanNode.activeChildSpan ≠ some thisIdx ∧ this.endedAt = none then
          .error .ActiveChildSpanChanged
        else if this.activeChildSpan.isSome then .error .SpanStillHasActiveChildSpan
        else if this.endedAt.isSome then .ok st
        else
          let nodes1 := setNodeF st.nodes p (fun nd => { nd with activeChildSpan := none })
          let nodes2 := setNodeF nodes1 thisIdx (fun nd => { nd with endedAt := some st.clock })
          .ok { st with
                  nodes := nodes2,
                  clock := st.clock + 1,
                  events := st.events ++ [SinkEvent.endSpan thisIdx] }

/-- One call into the package: beginning a task or span with some context
value, or invoking an end closure for a node. -/
inductive Op where
  | beginTask (ctx : Option Nat) (name : String)
  | endTask (idx : Nat)
  | beginSpan (ctx : Option Nat) (annot : String)
  | endSpan (idx : Nat)
deriving DecidableEq

/-- Apply one call to the state.  A panic aborts the process, so a
failing call contributes no state change. -/
def applyOp (st : TraceState) : Op → TraceState
  | .beginTask ctx name => (withTask st ctx name).1
  | .endTask idx =>
    match endTask st idx with
    | .ok st' => st'
    | .error _ => st
  | .beginSpan ctx annot =>
    match withSpan st ctx annot with
    | .ok r => r.1
    | .error _ => st
  | .endSpan idx =>
    match endSpan st idx with
    | .ok st' => st'
    | .error _ => st

/-- Run a sequence of calls. -/
def run (st : TraceState) : List Op → TraceState
  | [] => st
  | op :: rest => run (applyOp st op) rest

/-- States reachable from process start by some sequence of calls. -/
def Reachable (st : TraceState) : Prop :=
  ∃ ops : List Op, run initState ops = st

/-- Decidable well-formedness of an arena: every parent link points
strictly below the node itself (true of every reachable state, since a
node's parents exist before it is appended). -/
def wfNodes (nodes : List TraceNode) : Bool :=
  (List.range nodes.length).all fun i =>
    match nodes[i]? with
    | some nd =>
      (match nd.parentTask with | some p => decide (p < i) | none => true) &&
      (match nd.parentSpan with | some p => decide (p < i) | none => true)
    | none => true

/-- Shallow embedding of the `StackKind` struct (trace.go lines 319-322):
a pair of symbolization functions. -/
structure StackKind where
  symbolizeTask : TraceNode → String
  symbolizeSpan : TraceNode → String

/-- The identifier-only strategy `StackKindId` (trace.go lines 325-328). -/
def StackKindId : StackKind :=
  { symbolizeTask := fun t => t.id, symbolizeSpan := fun s => s.id }

/-- The combined strategy `SpanStackKindCombined` (trace.go lines
329-332); Go's `%q` is modelled as plain double quoting. -/
def stackKindCombined : StackKind :=
  { symbolizeTask := fun t => "(" ++ t.id ++ " \"" ++ t.annot ++ "\")",
    symbolizeSpan := fun s => "(" ++ s.id ++ " \"" ++ s.annot ++ "\")" }

/-- The annotation-only strategy `SpanStackKindAnnotation` (trace.go
lines 333-336). -/
def stackKindAnnot : StackKind :=
  { symbolizeTask := fun t => t.annot, symbolizeSpan := fun s => s.annot }

/-- Embedding of the `task()` method (trace.go lines 339-345): the node
itself when it is a task node, else its `parentTask`. -/
def nodeTask (nodes : List TraceNode) (i : Nat) : Option Nat :=
  match nodes[i]? with
  | none => none
  | some nd => if nd.parentSpan = none then some i else nd.parentTask

/-- The `spansInTask` slice of `TaskAndSpanStack` (trace.go lines
355-358): follow `parentSpan` links from the node itself until a `nil`
link, collecting every visited node — note that the walk therefore ends
by collecting the enclosing task node, whose `parentSpan` is `nil`. -/
def spanChain (nodes : List TraceNode) : Nat → Option Nat → List Nat
  | 0, _ => []
  | _+1, none => []
  | fuel+1, some i =>
    i :: (match nodes[i]? with
          | none => []
          | some nd => spanChain nodes fuel nd.parentSpan)

/-- Apply a symbolization function through an arena index. -/
def symbolizeAt (nodes : List TraceNode) (f : TraceNode → String) (i : Nat) : String :=
  match nodes[i]? with
  | some nd => f nd
  | none => ""

/-- Shallow embedding of `TaskAndSpanStack` (trace.go lines 352-377):
tasks root-to-leaf joined by the dollar sign, then one more dollar sign,
then the `parentSpan` walk root-to-leaf joined by dots. -/
def taskAndSpanStack (nodes : List TraceNode) (i : Nat) (kind : StackKind) : String :=
  let task := nodeTask nodes i
  let spansInTask := spanChain nodes nodes.length (some i)
  let tasks := ancestorChain nodes nodes.length task
  let taskIdsRev := List.map (symbolizeAt nodes kind.symbolizeTask) tasks.reverse
  let spanIdsRev := List.map (symbolizeAt nodes kind.symbolizeSpan) spansInTask.reverse
  String.intercalate "$" taskIdsRev ++ "$" ++ String.intercalate "." spanIdsRev

/-- Shallow embedding of `GetSpanStackOrDefault` (trace.go lines
379-386).  Note that the source passes `StackKindId` to
`TaskAndSpanStack`, ignoring its own `kind` parameter. -/
def getSpanStackOrDefault (st : TraceState) (ctx : Option Nat) (kind : StackKind) (dflt : String) : String :=
  match ctx with
  | some i => taskAndSpanStack st.nodes i StackKindId
  | none => dflt

theorem mem_le_maxUsed (used : List Nat) (x : Nat) (hx : x ∈ used) : x ≤ maxUsed used := by
  induction used with
  | nil => cases hx
  | cons a rest ih =>
    rcases List.mem_cons.mp hx with h | h
    · subst h; exact le_max_left _ _
    · exact le_trans (ih h) (le_max_right _ _)

theorem scanFree_spec (used : List Nat) (fuel n : Nat)
    (hbelow : ∀ k < n, k ∈ used) (hfuel : maxUsed used < n + fuel) :
    scanFree used fuel n ∉ used ∧ ∀ k < scanFree used fuel n, k ∈ used := by
  induction fuel generalizing n with
  | zero =>
    simp only [scanFree]
    refine ⟨fun hmem => ?_, hbelow⟩
    have := mem_le_maxUsed used _ hmem
    omega
  | succ fuel ih =>
    by_cases hn : n ∈ used
    · have hb : ∀ k < n + 1, k ∈ used := by
        intro k hk
        rcases Nat.lt_succ_iff_lt_or_eq.mp hk with h | h
        · exact hbelow k h
        · subst h; exact hn
      have := ih (n + 1) hb (by omega)
      simp only [scanFree, if_pos hn]
      exact this
    · simp only [scanFree, if_neg hn]
      exact ⟨hn, hbelow⟩

theorem lowestUnused_spec (used : List Nat) :
    lowestUnused used ∉ used ∧ ∀ k < lowestUnused used, k ∈ used :=
  scanFree_spec used (maxUsed used + 1) 0 (fun k hk => absurd hk (Nat.not_lt_zero k)) (by omega)

/-- First allocation for base name "sync". -/
def syncAlloc0 : String × Nat × Namer := uniqueConcurrentTaskName [] "sync"

/-- Second allocation for "sync" while the first is still held. -/
def syncAlloc1 : String × Nat × Namer := uniqueConcurrentTaskName syncAlloc0.2.2 "sync"

/-- Allocation for "sync" after suffix 0 has been released. -/
def syncAlloc2 : String × Nat × Namer :=
  uniqueConcurrentTaskName (namerRelease syncAlloc1.2.2 "sync" 0) "sync"

/-- C9: the Unique Namer's Allocate always picks the lowest non-negative
integer suffix not currently allocated for the given base name; two
allocations for "sync" yield display names differing only by suffixes 0
and 1, and after releasing suffix 0 the next allocation for "sync"
reuses 0 rather than 2. -/
theorem c9_unique_namer_lowest_suffix (namer : Namer) (name : String) :
    ((uniqueConcurrentTaskName namer name).2.1 ∉ namerUsed namer name ∧
      (∀ k < (uniqueConcurrentTaskName namer name).2.1, k ∈ namerUsed namer name) ∧
      (uniqueConcurrentTaskName namer name).1 =
        name ++ "#" ++ Nat.repr (uniqueConcurrentTaskName namer name).2.1) ∧
    (syncAlloc0.2.1 = 0 ∧ syncAlloc0.1 = "sync#0" ∧
      syncAlloc1.2.1 = 1 ∧ syncAlloc1.1 = "sync#1" ∧
      syncAlloc2.2.1 = 0 ∧ syncAlloc2.1 = "sync#0") := by
  constructor
  · refine ⟨(lowestUnused_spec (namerUsed namer name)).1, (lowestUnused_spec (namerUsed namer name)).2, rfl⟩
  · exact ⟨by decide, by decide, by decide, by decide, by decide, by decide⟩

/-- The ancestry scenario of the spec: root task "A", child task "B" of
"A", span "y" opened inside "B", span "x" opened as child of "y".  The
nodes get arena indices 0 (A), 1 (B), 2 (y), 3 (x). -/
def ancestryOps : List Op :=
  [Op.beginTask none "A", Op.beginTask (some 0) "B",
   Op.beginSpan (some 1) "y", Op.beginSpan (some 2) "x"]

/-- The state after running the ancestry scenario. -/
def ancestrySt : TraceState := run initState ancestryOps

/-- C1 counterexample: in the A/B/y/x scenario, the ancestry label of
x's context is not "A$B$y.x", neither through `GetSpanStackOrDefault`
with the annotation-only strategy nor through a direct
`TaskAndSpanStack` call with that strategy. -/
theorem c1_ancestry_label_counterexample :
    getSpanStackOrDefault ancestrySt (some 3) stackKindAnnot "fallback" ≠ "A$B$y.x" ∧
    taskAndSpanStack ancestrySt.nodes 3 stackKindAnnot ≠ "A$B$y.x" := by
  exact ⟨by decide, by decide⟩

/-- C1 amended: `GetSpanStackOrDefault` ignores its strategy argument
and always renders the identifier-only stack (for any strategy and any
default, here "1$2$2.3.4" under the sequential-counter id model), and
the span chain produced by `TaskAndSpanStack` starts with the enclosing
task node itself, so the annotation-only stack of x is
"A#0$B#0$B#0.y.x" (task names carrying the namer's "#0" suffixes), not
"A$B$y.x". -/
theorem c1_ancestry_label_amended :
    (∀ kind : StackKind, ∀ dflt : String,
        getSpanStackOrDefault ancestrySt (some 3) kind dflt =
          taskAndSpanStack ancestrySt.nodes 3 StackKindId) ∧
    taskAndSpanStack ancestrySt.nodes 3 StackKindId = "1$2$2.3.4" ∧
    taskAndSpanStack ancestrySt.nodes 3 stackKindAnnot = "A#0$B#0$B#0.y.x" := by
  exact ⟨fun kind dflt => rfl, by decide, by decide⟩

/-- C8: starting a span from a context that carries no trace node always
fails fatally with the not-inside-task panic; no state is produced. -/
theorem c8_span_requires_task (st : TraceState) (annot : String) :
    withSpan st none annot = Except.error TraceError.NotInsideTask := by
  rfl

theorem getElem?_lt {α : Type} (l : List α) (j : Nat) (a : α) (h : l[j]? = some a) :
    j < l.length := by
  by_contra hcon
  rw [List.getElem?_eq_none (by omega)] at h
  cases h

/-- The span node `WithSpan` allocates (trace.go lines 271-280) when the
context carries node `nd` at index `c`. -/
def spanNewNode (st : TraceState) (c : Nat) (nd : TraceNode) (annot : String) : TraceNode :=
  { id := genID st.nextId, annot := annot,
    parentTask := if nd.parentSpan.isNone then some c else nd.parentTask,
    activeChildTasks := 0, parentSpan := some c, activeChildSpan := none,
    startedAt := st.clock, endedAt := none }

/-- The state produced by a successful `WithSpan` call. -/
def spanSuccState (st : TraceState) (c : Nat) (nd : TraceNode) (annot : String) : TraceState :=
  { st with
      nodes := setNodeF (st.nodes ++ [spanNewNode st c nd annot]) c
        (fun x => { x with activeChildSpan := some st.nodes.length }),
      clock := st.clock + 1, nextId := st.nextId + 1,
      events := st.events ++ [SinkEvent.beginSpan st.nodes.length] }

theorem withSpan_ok (st : TraceState) (c : Nat) (nd : TraceNode) (annot : String)
    (hc : st.nodes[c]? = some nd) (hs : nd.activeChildSpan = none) :
    withSpan st (some c) annot = Except.ok (spanSuccState st c nd annot, st.nodes.length) := by
  have hs' : nd.activeChildSpan.isSome = false := by simp [hs]
  simp only [withSpan, hc, hs', Bool.false_eq_true, if_false]
  rfl

theorem withSpan_err (st : TraceState) (c : Nat) (nd : TraceNode) (annot : String)
    (hc : st.nodes[c]? = some nd) (hs : nd.activeChildSpan ≠ none) :
    withSpan st (some c) annot = Except.error TraceError.AlreadyActiveChildSpan := by
  have hs' : nd.activeChildSpan.isSome = true := Option.ne_none_iff_isSome.mp hs
  simp only [withSpan, hc, hs', if_pos]

/-- C6: starting a span under a parent node whose activeChildSpan is set
fails fatally with the already-active-child-span panic (producing no
state); when the parent's activeChildSpan is clear — in particular after
the previous child span has ended — the call succeeds, appending the new
span node (with `parentSpan` the attached node and `parentTask` its
enclosing task), pointing the parent's activeChildSpan at it, and
touching no other node. -/
theorem c6_already_active_child_span (st : TraceState) (c : Nat) (nd : TraceNode) (annot : String)
    (hc : st.nodes[c]? = some nd) :
    (nd.activeChildSpan ≠ none →
      withSpan st (some c) annot = Except.error TraceError.AlreadyActiveChildSpan) ∧
    (nd.activeChildSpan = none →
      ∃ st' : TraceState, withSpan st (some c) annot = Except.ok (st', st.nodes.length) ∧
        st'.nodes[c]? = some { nd with activeChildSpan := some st.nodes.length } ∧
        st'.nodes[st.nodes.length]? = some (spanNewNode st c nd annot) ∧
        (∀ j, j < st.nodes.length → j ≠ c → st'.nodes[j]? = st.nodes[j]?)) := by
  have hclen : c < st.nodes.length := getElem?_lt _ _ _ hc
  constructor
  · intro hne
    exact withSpan_err st c nd annot hc hne
  · intro heq
    refine ⟨spanSuccState st c nd annot, withSpan_ok st c nd annot hc heq, ?_, ?_, ?_⟩
    · show (setNodeF (st.nodes ++ [spanNewNode st c nd annot]) c _)[c]? = _
      rw [getElem?_setNodeF_self, getElem?_append_lt _ _ _ hclen, hc]
      rfl
    · show (setNodeF (st.nodes ++ [spanNewNode st c nd annot]) c _)[st.nodes.length]? = _
      rw [getElem?_setNodeF_ne _ _ _ _ (by omega), getElem?_append_len]
    · intro j hj hjc
      show (setNodeF (st.nodes ++ [spanNewNode st c nd annot]) c _)[j]? = _
      rw [getElem?_setNodeF_ne _ _ _ _ hjc, getElem?_append_lt _ _ _ hj]

/-- A placeholder node for total lookups in witness scenarios. -/
def dummyNode : TraceNode :=
  { id := "", annot := "", parentTask := none, activeChildTasks := 0,
    parentSpan := none, activeChildSpan := none, startedAt := 0, endedAt := none }

/-- Witness scenario: task "A" with an active child span "y". -/
def c6WitSt1 : TraceState :=
  run initState [Op.beginTask none "A", Op.beginSpan (some 0) "y"]

/-- Witness scenario: same, after span "y" has ended. -/
def c6WitSt2 : TraceState :=
  run initState [Op.beginTask none "A", Op.beginSpan (some 0) "y", Op.endSpan 1]

/-- The task node of `c6WitSt1`. -/
def c6WitNd1 : TraceNode :=
  match c6WitSt1.nodes[0]? with
  | some nd => nd
  | none => dummyNode

/-- The task node of `c6WitSt2`. -/
def c6WitNd2 : TraceNode :=
  match c6WitSt2.nodes[0]? with
  | some nd => nd
  | none => dummyNode

/-- Witness for C6 at a concrete scenario: opening a second span under
task "A" while "y" is active fails with the already-active-child-span
panic; after "y" ends, opening span "z" under "A" succeeds. -/
theorem c6_already_active_child_span_witness :
    (c6WitSt1.nodes[0]? = some c6WitNd1 ∧ c6WitNd1.activeChildSpan ≠ none) ∧
    withSpan c6WitSt1 (some 0) "z" = Except.error TraceError.AlreadyActiveChildSpan ∧
    (c6WitSt2.nodes[0]? = some c6WitNd2 ∧ c6WitNd2.activeChildSpan = none) ∧
    (∃ st' : TraceState, withSpan c6WitSt2 (some 0) "z" = Except.ok (st', c6WitSt2.nodes.length) ∧
      st'.nodes[0]? = some { c6WitNd2 with activeChildSpan := some c6WitSt2.nodes.length } ∧
      st'.nodes[c6WitSt2.nodes.length]? = some (spanNewNode c6WitSt2 0 c6WitNd2 "z") ∧
      (∀ j, j < c6WitSt2.nodes.length → j ≠ 0 → st'.nodes[j]? = c6WitSt2.nodes[j]?)) :=
  ⟨⟨by decide, by decide⟩,
   (c6_already_active_child_span c6WitSt1 0 c6WitNd1 "z" (by decide)).1 (by decide),
   ⟨by decide, by decide⟩,
   (c6_already_active_child_span c6WitSt2 0 c6WitNd2 "z" (by decide)).2 (by decide)⟩

theorem wf_parentTask_lt (nodes : List TraceNode) (hwf : wfNodes nodes = true)
    (i : Nat) (nd : TraceNode) (h : nodes[i]? = some nd) (p : Nat) (hp : nd.parentTask = some p) :
    p < i := by
  have hi : i < nodes.length := getElem?_lt _ _ _ h
  have := List.all_eq_true.mp hwf i (List.mem_range.mpr hi)
  simp only [h, hp, Bool.and_eq_true, decide_eq_true_eq] at this
  exact this.1

theorem wf_parentSpan_lt (nodes : List TraceNode) (hwf : wfNodes nodes = true)
    (i : Nat) (nd : TraceNode) (h : nodes[i]? = some nd) (p : Nat) (hp : nd.parentSpan = some p) :
    p < i := by
  have hi : i < nodes.length := getElem?_lt _ _ _ h
  have := List.all_eq_true.mp hwf i (List.mem_range.mpr hi)
  simp only [h, hp, Bool.and_eq_true, decide_eq_true_eq] at this
  exact this.2

/-- The state produced by a successful, non-idempotent task end, given
the already-updated arena `nodes2`: bump the clock, emit the end event,
decrement the gauge and release the task's name suffix. -/
def taskEndState (st : TraceState) (thisIdx : Nat) (nodes2 : List TraceNode) : TraceState :=
  { st with
      nodes := nodes2,
      clock := st.clock + 1,
      activeTasks := st.activeTasks - 1,
      events := st.events ++ [SinkEvent.endTask thisIdx],
      namer :=
        match List.find? (fun e => e.1 == thisIdx) st.doneEnv with
        | some e => namerRelease st.namer e.2.1 e.2.2
        | none => st.namer }

theorem endTask_err_children (st : TraceState) (idx : Nat) (nd : TraceNode)
    (h : st.nodes[idx]? = some nd) (hspan : nd.parentSpan = none)
    (hcnt : nd.activeChildTasks ≠ 0) :
    endTask st idx = Except.error TraceError.TaskStillHasActiveChildTasks := by
  have hspan' : nd.parentSpan.isSome = false := by simp [hspan]
  simp only [endTask, h, hspan', Bool.false_eq_true, if_false, if_pos hcnt]

theorem endTask_idem (st : TraceState) (idx : Nat) (nd : TraceNode)
    (h : st.nodes[idx]? = some nd) (hspan : nd.parentSpan = none)
    (hcnt : nd.activeChildTasks = 0) (hend : nd.endedAt.isSome = true) :
    endTask st idx = Except.ok st := by
  have hspan' : nd.parentSpan.isSome = false := by simp [hspan]
  have hcnt' : ¬nd.activeChildTasks ≠ 0 := fun hh => hh hcnt
  simp only [endTask, h, hspan', Bool.false_eq_true, if_false, if_neg hcnt', hend, if_true]

theorem endTask_ok_root (st : TraceState) (idx : Nat) (nd : TraceNode)
    (h : st.nodes[idx]? = some nd) (hspan : nd.parentSpan = none)
    (hcnt : nd.activeChildTasks = 0) (hend : nd.endedAt = none)
    (hpt : nd.parentTask = none) :
    endTask st idx =
      Except.ok (taskEndState st idx
        (setNodeF st.nodes idx (fun x => { x with endedAt := some st.clock }))) := by
  have hspan' : nd.parentSpan.isSome = false := by simp [hspan]
  have hcnt' : ¬nd.activeChildTasks ≠ 0 := fun hh => hh hcnt
  have hend' : nd.endedAt.isSome = false := by simp [hend]
  simp only [endTask, h, hspan', Bool.false_eq_true, if_false, if_neg hcnt', hend', hpt]
  rfl

theorem endTask_ok_parent (st : TraceState) (idx : Nat) (nd : TraceNode) (p : Nat)
    (h : st.nodes[idx]? = some nd) (hspan : nd.parentSpan = none)
    (hcnt : nd.activeChildTasks = 0) (hend : nd.endedAt = none)
    (hpt : nd.parentTask = some p) (hpi : p ≠ idx)
    (hpos : ∀ pn, st.nodes[p]? = some pn → 0 < pn.activeChildTasks) :
    endTask st idx =
      Except.ok (taskEndState st idx
        (setNodeF (setNodeF st.nodes idx (fun x => { x with endedAt := some st.clock })) p
          (fun x => { x with activeChildTasks := x.activeChildTasks - 1 }))) := by
  have hspan' : nd.parentSpan.isSome = false := by simp [hspan]
  have hcnt' : ¬nd.activeChildTasks ≠ 0 := fun hh => hh hcnt
  have hend' : nd.endedAt.isSome = false := by simp [hend]
  have hlook :
      (setNodeF (setNodeF st.nodes idx (fun x => { x with endedAt := some st.clock })) p
          (fun x => { x with activeChildTasks := x.activeChildTasks - 1 }))[p]? =
        (st.nodes[p]?).map (fun x => { x with activeChildTasks := x.activeChildTasks - 1 }) := by
    rw [getElem?_setNodeF_self, getElem?_setNodeF_ne _ _ _ _ hpi]
  have hany :
      ((setNodeF (setNodeF st.nodes idx (fun x => { x with endedAt := some st.clock })) p
          (fun x => { x with activeChildTasks := x.activeChildTasks - 1 }))[p]?).any
        (fun pn => decide (pn.activeChildTasks < 0)) = false := by
    rw [hlook]
    cases hpn : st.nodes[p]? with
    | none => rfl
    | some pn =>
      have := hpos pn hpn
      show decide (pn.activeChildTasks - 1 < 0) = false
      rw [decide_eq_false_iff_not]
      omega
  simp only [endTask, h, hspan', Bool.false_eq_true, if_false, if_neg hcnt', hend', hpt, hany,
    Bool.false_eq_true, if_false]
  rfl

/-- The state produced by a successful, non-idempotent span end: clear
the parent's activeChildSpan, stamp the span's endedAt, bump the clock
and emit the end event. -/
def spanEndState (st : TraceState) (thisIdx p : Nat) : TraceState :=
  { st with
      nodes := setNodeF (setNodeF st.nodes p (fun nd => { nd with activeChildSpan := none }))
        thisIdx (fun nd => { nd with endedAt := some st.clock }),
      clock := st.clock + 1,
      events := st.events ++ [SinkEvent.endSpan thisIdx] }

theorem endSpan_err_child (st : TraceState) (idx : Nat) (nd : TraceNode) (p : Nat)
    (pn : TraceNode) (h : st.nodes[idx]? = some nd) (hps : nd.parentSpan = some p)
    (hp : st.nodes[p]? = some pn)
    (hguard : pn.activeChildSpan = some idx ∨ nd.endedAt ≠ none)
    (hacs : nd.activeChildSpan ≠ none) :
    endSpan st idx = Except.error TraceError.SpanStillHasActiveChildSpan := by
  have hg : ¬(pn.activeChildSpan ≠ some idx ∧ nd.endedAt = none) := by
    rcases hguard with hg1 | hg1
    · exact fun hh => hh.1 hg1
    · exact fun hh => hg1 hh.2
  have hacs' : nd.activeChildSpan.isSome = true := Option.ne_none_iff_isSome.mp hacs
  simp only [endSpan, h, hps, hp, if_neg hg, hacs', if_pos]

theorem endSpan_idem (st : TraceState) (idx : Nat) (nd : TraceNode) (p : Nat)
    (pn : TraceNode) (h : st.nodes[idx]? = some nd) (hps : nd.parentSpan = some p)
    (hp : st.nodes[p]? = some pn) (hend : nd.endedAt.isSome = true)
    (hacs : nd.activeChildSpan = none) :
    endSpan st idx = Except.ok st := by
  have hg : ¬(pn.activeChildSpan ≠ some idx ∧ nd.endedAt = none) := by
    intro hh
    rw [hh.2] at hend
    cases hend
  have hacs' : nd.activeChildSpan.isSome = false := by simp [hacs]
  simp only [endSpan, h, hps, hp, if_neg hg, hacs', Bool.false_eq_true, if_false, hend, if_true]

theorem endSpan_ok (st : TraceState) (idx : Nat) (nd : TraceNode) (p : Nat)
    (pn : TraceNode) (h : st.nodes[idx]? = some nd) (hps : nd.parentSpan = some p)
    (hp : st.nodes[p]? = some pn) (hpacs : pn.activeChildSpan = some idx)
    (hacs : nd.activeChildSpan = none) (hend : nd.endedAt = none) :
    endSpan st idx = Except.ok (spanEndState st idx p) := by
  have hg : ¬(pn.activeChildSpan ≠ some idx ∧ nd.endedAt = none) := by
    intro hh
    exact hh.1 hpacs
  have hacs' : nd.activeChildSpan.isSome = false := by simp [hacs]
  have hend' : nd.endedAt.isSome = false := by simp [hend]
  simp only [endSpan, h, hps, hp, if_neg hg, hacs', hend', Bool.false_eq_true, if_false]
  rfl

/-- C5: ending a task with a nonzero activeChildTasks count fails
fatally with the task-has-active-children panic (producing no state
change, since the panic precedes every mutation); once the count is zero
— in particular after all child tasks have ended — the same end
operation succeeds, stamping `endedAt` with the current time and
decrementing the parent's activeChildTasks. -/
theorem c5_end_task_with_children (st : TraceState) (idx : Nat) (nd : TraceNode)
    (h : st.nodes[idx]? = some nd) (hspan : nd.parentSpan = none) :
    (nd.activeChildTasks ≠ 0 →
      endTask st idx = Except.error TraceError.TaskStillHasActiveChildTasks) ∧
    (nd.activeChildTasks = 0 → nd.endedAt = none →
      (∀ p, nd.parentTask = some p →
        p ≠ idx ∧ ∀ pn, st.nodes[p]? = some pn → 0 < pn.activeChildTasks) →
      ∃ st' : TraceState, endTask st idx = Except.ok st' ∧
        st'.nodes[idx]? = some { nd with endedAt := some st.clock } ∧
        (∀ p pn, nd.parentTask = some p → st.nodes[p]? = some pn →
          st'.nodes[p]? = some { pn with activeChildTasks := pn.activeChildTasks - 1 })) := by
  constructor
  · intro hcnt
    exact endTask_err_children st idx nd h hspan hcnt
  · intro hcnt hend hpar
    cases hpt : nd.parentTask with
    | none =>
      refine ⟨_, endTask_ok_root st idx nd h hspan hcnt hend hpt, ?_, ?_⟩
      · show (setNodeF st.nodes idx _)[idx]? = _
        rw [getElem?_setNodeF_self, h, ← hpt]
        rfl
      · intro p pn hps
        cases hps
    | some p =>
      have hpp := hpar p hpt
      refine ⟨_, endTask_ok_parent st idx nd p h hspan hcnt hend hpt hpp.1 hpp.2, ?_, ?_⟩
      · show (setNodeF (setNodeF st.nodes idx _) p _)[idx]? = _
        rw [getElem?_setNodeF_ne _ _ _ _ (fun hh => hpp.1 hh.symm), getElem?_setNodeF_self, h, ← hpt]
        rfl
      · intro q pn hq hpn
        cases hq
        show (setNodeF (setNodeF st.nodes idx _) p _)[p]? = _
        rw [getElem?_setNodeF_self, getElem?_setNodeF_ne _ _ _ _ hpp.1, hpn]
        rfl

/-- Witness scenario for C5: root task "A" (index 0) with child task
"B" (index 1). -/
def c5WitSt1 : TraceState :=
  run initState [Op.beginTask none "A", Op.beginTask (some 0) "B"]

/-- Witness scenario for C5 after "B" has ended. -/
def c5WitSt2 : TraceState :=
  run initState [Op.beginTask none "A", Op.beginTask (some 0) "B", Op.endTask 1]

/-- The root task node of `c5WitSt1`. -/
def c5WitNd1 : TraceNode :=
  match c5WitSt1.nodes[0]? with
  | some nd => nd
  | none => dummyNode

/-- The root task node of `c5WitSt2`. -/
def c5WitNd2 : TraceNode :=
  match c5WitSt2.nodes[0]? with
  | some nd => nd
  | none => dummyNode

/-- Witness for C5 at a concrete scenario: ending "A" while "B" is
alive fails with the task-has-active-children panic; after "B" ends,
ending "A" succeeds. -/
theorem c5_end_task_with_children_witness :
    (c5WitSt1.nodes[0]? = some c5WitNd1 ∧ c5WitNd1.parentSpan = none ∧
      c5WitNd1.activeChildTasks ≠ 0) ∧
    endTask c5WitSt1 0 = Except.error TraceError.TaskStillHasActiveChildTasks ∧
    (c5WitSt2.nodes[0]? = some c5WitNd2 ∧ c5WitNd2.parentSpan = none ∧
      c5WitNd2.activeChildTasks = 0 ∧ c5WitNd2.endedAt = none) ∧
    (∃ st' : TraceState, endTask c5WitSt2 0 = Except.ok st' ∧
      st'.nodes[0]? = some { c5WitNd2 with endedAt := some c5WitSt2.clock } ∧
      (∀ p pn, c5WitNd2.parentTask = some p → c5WitSt2.nodes[p]? = some pn →
        st'.nodes[p]? = some { pn with activeChildTasks := pn.activeChildTasks - 1 })) :=
  ⟨⟨by decide, by decide, by decide⟩,
   (c5_end_task_with_children c5WitSt1 0 c5WitNd1 (by decide) (by decide)).1 (by decide),
   ⟨by decide, by decide, by decide, by decide⟩,
   (c5_end_task_with_children c5WitSt2 0 c5WitNd2 (by decide) (by decide)).2 (by decide) (by decide)
     (by
        intro p hp
        have hn : c5WitNd2.parentTask = none := by decide
        rw [hn] at hp
        cases hp)⟩

/-- C3: an end operation that has already completed successfully is a
no-op on any repeat invocation — the repeat returns the same state, with
no timestamp, counter, activeChildSpan, gauge or sink-emission change. -/
theorem c3_idempotent_ends (st : TraceState) (idx : Nat)
    (hwf : wfNodes st.nodes = true) :
    (∀ st1, endTask st idx = Except.ok st1 → endTask st1 idx = Except.ok st1) ∧
    (∀ st2, endSpan st idx = Except.ok st2 → endSpan st2 idx = Except.ok st2) := by
  constructor
  · intro st1 hok
    cases hnd : st.nodes[idx]? with
    | none =>
      have he : endTask st idx = Except.ok st := by simp only [endTask, hnd]
      rw [he] at hok
      injection hok with h1
      subst h1
      exact he
    | some nd =>
      by_cases hsp : nd.parentSpan.isSome = true
      · have he : endTask st idx = Except.ok st := by
          simp only [endTask, hnd, hsp, if_true]
        rw [he] at hok
        injection hok with h1
        subst h1
        exact he
      · have hspF : nd.parentSpan.isSome = false := by
          cases hb : nd.parentSpan.isSome
          · rfl
          · exact absurd hb hsp
        have hspN : nd.parentSpan = none := Option.not_isSome_iff_eq_none.mp hsp
        by_cases hcnt : nd.activeChildTasks ≠ 0
        · rw [endTask_err_children st idx nd hnd hspN hcnt] at hok
          exact Except.noConfusion hok
        · have hcnt0 : nd.activeChildTasks = 0 := not_not.mp hcnt
          by_cases hend : nd.endedAt.isSome = true
          · have he := endTask_idem st idx nd hnd hspN hcnt0 hend
            rw [he] at hok
            injection hok with h1
            subst h1
            exact he
          · have hendF : nd.endedAt = none := Option.not_isSome_iff_eq_none.mp hend
            cases hpt : nd.parentTask with
            | none =>
              have he := endTask_ok_root st idx nd hnd hspN hcnt0 hendF hpt
              rw [he] at hok
              injection hok with h1
              subst h1
              refine endTask_idem _ idx { nd with endedAt := some st.clock } ?_ hspN hcnt0 rfl
              show (setNodeF st.nodes idx _)[idx]? = _
              rw [getElem?_setNodeF_self, hnd]
              rfl
            | some p =>
              have hplt : p < idx := wf_parentTask_lt st.nodes hwf idx nd hnd p hpt
              have hpi : p ≠ idx := by omega
              have hendB : nd.endedAt.isSome = false := by simp [hendF]
              rw [endTask] at hok
              rw [hnd] at hok
              simp only [hspF, Bool.false_eq_true, if_false, if_neg hcnt, hendB, hpt] at hok
              by_cases hneg :
                  ((setNodeF (setNodeF st.nodes idx (fun x => { x with endedAt := some st.clock })) p
                      (fun x => { x with activeChildTasks := x.activeChildTasks - 1 }))[p]?).any
                    (fun pn => decide (pn.activeChildTasks < 0)) = true
              · rw [if_pos hneg] at hok
                exact Except.noConfusion hok
              · have hnegF := Bool.not_eq_true _ ▸ hneg
                rw [if_neg hneg] at hok
                injection hok with h1
                subst h1
                refine endTask_idem _ idx { nd with endedAt := some st.clock } ?_ hspN hcnt0 rfl
                show (setNodeF (setNodeF st.nodes idx _) p _)[idx]? = _
                rw [getElem?_setNodeF_ne _ _ _ _ (fun hh => hpi hh.symm), getElem?_setNodeF_self,
                  hnd]
                rfl
  · intro st2 hok
    cases hnd : st.nodes[idx]? with
    | none =>
      have he : endSpan st idx = Except.ok st := by simp only [endSpan, hnd]
      rw [he] at hok
      injection hok with h1
      subst h1
      exact he
    | some nd =>
      cases hps : nd.parentSpan with
      | none =>
        have he : endSpan st idx = Except.ok st := by simp only [endSpan, hnd, hps]
        rw [he] at hok
        injection hok with h1
        subst h1
        exact he
      | some p =>
        cases hpn : st.nodes[p]? with
        | none =>
          have he : endSpan st idx = Except.ok st := by simp only [endSpan, hnd, hps, hpn]
          rw [he] at hok
          injection hok with h1
          subst h1
          exact he
        | some pn =>
          by_cases hg : pn.activeChildSpan ≠ some idx ∧ nd.endedAt = none
          · have he : endSpan st idx = Except.error TraceError.ActiveChildSpanChanged := by
              simp only [endSpan, hnd, hps, hpn, if_pos hg]
            rw [he] at hok
            exact Except.noConfusion hok
          · by_cases hacs : nd.activeChildSpan.isSome = true
            · have he : endSpan st idx = Except.error TraceError.SpanStillHasActiveChildSpan := by
                simp only [endSpan, hnd, hps, hpn, if_neg hg, hacs, if_true]
              rw [he] at hok
              exact Except.noConfusion hok
            · have hacsN : nd.activeChildSpan = none := Option.not_isSome_iff_eq_none.mp hacs
              by_cases hend : nd.endedAt.isSome = true
              · have he := endSpan_idem st idx nd p pn hnd hps hpn hend hacsN
                rw [he] at hok
                injection hok with h1
                subst h1
                exact he
              · have hendF : nd.endedAt = none := Option.not_isSome_iff_eq_none.mp hend
                have hpacs : pn.activeChildSpan = some idx := by
                  by_contra hc
                  exact hg ⟨hc, hendF⟩
                have hplt : p < idx := wf_parentSpan_lt st.nodes hwf idx nd hnd p hps
                have hpi : p ≠ idx := by omega
                have he := endSpan_ok st idx nd p pn hnd hps hpn hpacs hacsN hendF
                rw [he] at hok
                injection hok with h1
                subst h1
                refine endSpan_idem _ idx { nd with endedAt := some st.clock } p
                  { pn with activeChildSpan := none } ?_ hps ?_ rfl ?_
                · show (setNodeF (setNodeF st.nodes p _) idx _)[idx]? = _
                  rw [getElem?_setNodeF_self, getElem?_setNodeF_ne _ _ _ _ (fun hh => hpi hh.symm),
                    hnd]
                  rfl
                · show (setNodeF (setNodeF st.nodes p _) idx _)[p]? = _
                  rw [getElem?_setNodeF_ne _ _ _ _ hpi, getElem?_setNodeF_self, hpn]
                  rfl
                · exact hacsN

/-- Witness scenario for C3: a single root task. -/
def c3TaskSt : TraceState := run initState [Op.beginTask none "A"]

/-- The state after ending that task once. -/
def c3TaskEnd : TraceState := run initState [Op.beginTask none "A", Op.endTask 0]

/-- Witness scenario for C3: a task with one span. -/
def c3SpanSt : TraceState :=
  run initState [Op.beginTask none "A", Op.beginSpan (some 0) "y"]

/-- The state after ending that span once. -/
def c3SpanEnd : TraceState :=
  run initState [Op.beginTask none "A", Op.beginSpan (some 0) "y", Op.endSpan 1]

/-- Witness for C3 at concrete scenarios: repeating a completed task end
returns the same state, and likewise for a completed span end. -/
theorem c3_idempotent_ends_witness :
    wfNodes c3TaskSt.nodes = true ∧
    endTask c3TaskSt 0 = Except.ok c3TaskEnd ∧
    endTask c3TaskEnd 0 = Except.ok c3TaskEnd ∧
    wfNodes c3SpanSt.nodes = true ∧
    endSpan c3SpanSt 1 = Except.ok c3SpanEnd ∧
    endSpan c3SpanEnd 1 = Except.ok c3SpanEnd :=
  ⟨by decide, by rfl,
   (c3_idempotent_ends c3TaskSt 0 (by decide)).1 c3TaskEnd (by rfl),
   by decide, by rfl,
   (c3_idempotent_ends c3SpanSt 1 (by decide)).2 c3SpanEnd (by rfl)⟩

/-- Whether an `endTask` call at this state completes a first-time task
end: it succeeds, and the node was a not-yet-ended task, so this very
call stamps `endedAt` (rather than being an idempotent repeat). -/
def firstTimeTaskEnd (st : TraceState) (idx : Nat) : Bool :=
  match st.nodes[idx]?, endTask st idx with
  | some nd, Except.ok _ => nd.parentSpan.isNone && nd.endedAt.isNone
  | _, _ => false

/-- Number of `BeginTask` calls in a call sequence. -/
def countBeginTasks : List Op → Nat
  | [] => 0
  | Op.beginTask _ _ :: rest => countBeginTasks rest + 1
  | _ :: rest => countBeginTasks rest

/-- Number of completed first-time task ends along a run. -/
def countFirstTimeTaskEnds : TraceState → List Op → Nat
  | _, [] => 0
  | st, op :: rest =>
    (match op with
     | Op.endTask idx => if firstTimeTaskEnd st idx then 1 else 0
     | _ => 0) + countFirstTimeTaskEnds (applyOp st op) rest

theorem withSpan_activeTasks (st : TraceState) (ctx : Option Nat) (annot : String)
    (r : TraceState × Nat) (h : withSpan st ctx annot = Except.ok r) :
    r.1.activeTasks = st.activeTasks := by
  cases ctx with
  | none =>
    rw [withSpan] at h
    exact Except.noConfusion h
  | some c =>
    cases hnd : st.nodes[c]? with
    | none =>
      have he : withSpan st (some c) annot = Except.error TraceError.NotInsideTask := by
        simp only [withSpan, hnd]
      rw [he] at h
      exact Except.noConfusion h
    | some nd =>
      by_cases hacs : nd.activeChildSpan = none
      · rw [withSpan_ok st c nd annot hnd hacs] at h
        injection h with h1
        subst h1
        rfl
      · rw [withSpan_err st c nd annot hnd hacs] at h
        exact Except.noConfusion h

theorem endSpan_activeTasks (st : TraceState) (idx : Nat) (st' : TraceState)
    (h : endSpan st idx = Except.ok st') : st'.activeTasks = st.activeTasks := by
  cases hnd : st.nodes[idx]? with
  | none =>
    have he : endSpan st idx = Except.ok st := by simp only [endSpan, hnd]
    rw [he] at h
    injection h with h1
    subst h1
    rfl
  | some nd =>
    cases hps : nd.parentSpan with
    | none =>
      have he : endSpan st idx = Except.ok st := by simp only [endSpan, hnd, hps]
      rw [he] at h
      injection h with h1
      subst h1
      rfl
    | some p =>
      cases hpn : st.nodes[p]? with
      | none =>
        have he : endSpan st idx = Except.ok st := by simp only [endSpan, hnd, hps, hpn]
        rw [he] at h
        injection h with h1
        subst h1
        rfl
      | some pn =>
        by_cases hg : pn.activeChildSpan ≠ some idx ∧ nd.endedAt = none
        · have he : endSpan st idx = Except.error TraceError.ActiveChildSpanChanged := by
            simp only [endSpan, hnd, hps, hpn, if_pos hg]
          rw [he] at h
          exact Except.noConfusion h
        · by_cases hacs : nd.activeChildSpan.isSome = true
          · have he : endSpan st idx = Except.error TraceError.SpanStillHasActiveChildSpan := by
              simp only [endSpan, hnd, hps, hpn, if_neg hg, hacs, if_true]
            rw [he] at h
            exact Except.noConfusion h
          · have hacsN : nd.activeChildSpan = none := Option.not_isSome_iff_eq_none.mp hacs
            by_cases hend : nd.endedAt.isSome = true
            · rw [endSpan_idem st idx nd p pn hnd hps hpn hend hacsN] at h
              injection h with h1
              subst h1
              rfl
            · have hendF : nd.endedAt = none := Option.not_isSome_iff_eq_none.mp hend
              have hpacs : pn.activeChildSpan = some idx := by
                by_contra hc
                exact hg ⟨hc, hendF⟩
              rw [endSpan_ok st idx nd p pn hnd hps hpn hpacs hacsN hendF] at h
              injection h with h1
              subst h1
              rfl

theorem endTask_activeTasks (st : TraceState) (idx : Nat) (st' : TraceState)
    (h : endTask st idx = Except.ok st') :
    (firstTimeTaskEnd st idx = true → st'.activeTasks = st.activeTasks - 1) ∧
    (firstTimeTaskEnd st idx = false → st'.activeTasks = st.activeTasks) := by
  cases hnd : st.nodes[idx]? with
  | none =>
    have he : endTask st idx = Except.ok st := by simp only [endTask, hnd]
    have hf : firstTimeTaskEnd st idx = false := by simp only [firstTimeTaskEnd, hnd]
    rw [he] at h
    injection h with h1
    subst h1
    exact ⟨fun hc => absurd (hf ▸ hc) (by simp), fun _ => rfl⟩
  | some nd =>
    cases hps : nd.parentSpan with
    | some q =>
      have hspT : nd.parentSpan.isSome = true := by rw [hps]; rfl
      have he : endTask st idx = Except.ok st := by simp only [endTask, hnd, hspT, if_true]
      have hf : firstTimeTaskEnd st idx = false := by
        simp only [firstTimeTaskEnd, hnd, he, hps]
        rfl
      rw [he] at h
      injection h with h1
      subst h1
      exact ⟨fun hc => absurd (hf ▸ hc) (by simp), fun _ => rfl⟩
    | none =>
      by_cases hcnt : nd.activeChildTasks ≠ 0
      · rw [endTask_err_children st idx nd hnd hps hcnt] at h
        exact Except.noConfusion h
      · have hcnt0 : nd.activeChildTasks = 0 := not_not.mp hcnt
        cases hsend : nd.endedAt with
        | some t =>
          have hsendT : nd.endedAt.isSome = true := by rw [hsend]; rfl
          have he := endTask_idem st idx nd hnd hps hcnt0 hsendT
          have hf : firstTimeTaskEnd st idx = false := by
            simp only [firstTimeTaskEnd, hnd, he, hsend]
            simp
          rw [he] at h
          injection h with h1
          subst h1
          exact ⟨fun hc => absurd (hf ▸ hc) (by simp), fun _ => rfl⟩
        | none =>
          cases hpt : nd.parentTask with
          | none =>
            have he := endTask_ok_root st idx nd hnd hps hcnt0 hsend hpt
            have hf : firstTimeTaskEnd st idx = true := by
              simp only [firstTimeTaskEnd, hnd, he, hps, hsend]
              rfl
            rw [he] at h
            injection h with h1
            subst h1
            exact ⟨fun _ => rfl, fun hc => absurd (hf ▸ hc) (by simp)⟩
          | some p =>
            have hsendF : nd.endedAt.isSome = false := by rw [hsend]; rfl
            have hspF : nd.parentSpan.isSome = false := by rw [hps]; rfl
            rw [endTask] at h
            rw [hnd] at h
            simp only [hspF, Bool.false_eq_true, if_false, if_neg hcnt, hsendF, hpt] at h
            by_cases hneg :
                ((setNodeF (setNodeF st.nodes idx (fun x => { x with endedAt := some st.clock })) p
                    (fun x => { x with activeChildTasks := x.activeChildTasks - 1 }))[p]?).any
                  (fun pn => decide (pn.activeChildTasks < 0)) = true
            · rw [if_pos hneg] at h
              exact Except.noConfusion h
            · rw [if_neg hneg] at h
              have he : endTask st idx = Except.ok st' := by
                rw [endTask]
                rw [hnd]
                simp only [hspF, Bool.false_eq_true, if_false, if_neg hcnt, hsendF, hpt]
                rw [if_neg hneg]
                exact congrArg Except.ok (by injection h)
              have hf : firstTimeTaskEnd st idx = true := by
                simp only [firstTimeTaskEnd, hnd, he, hps, hsend]
                rfl
              injection h with h1
              subst h1
              exact ⟨fun _ => rfl, fun hc => absurd (hf ▸ hc) (by simp)⟩

theorem applyOp_activeTasks (st : TraceState) (op : Op) :
    (applyOp st op).activeTasks =
      st.activeTasks +
        (match op with
         | Op.beginTask _ _ => (1 : Int)
         | Op.endTask idx => if firstTimeTaskEnd st idx then (-1 : Int) else 0
         | Op.beginSpan _ _ => 0
         | Op.endSpan _ => 0) := by
  cases op with
  | beginTask ctx name => rfl
  | endTask idx =>
    cases he : endTask st idx with
    | error e =>
      have hst : applyOp st (Op.endTask idx) = st := by simp only [applyOp, he]
      have hf : firstTimeTaskEnd st idx = false := by
        cases hnd : st.nodes[idx]? with
        | none => simp only [firstTimeTaskEnd, hnd]
        | some nd => simp only [firstTimeTaskEnd, hnd, he]
      rw [hst]
      simp [hf]
    | ok st' =>
      have hst : applyOp st (Op.endTask idx) = st' := by simp only [applyOp, he]
      rw [hst]
      cases hf : firstTimeTaskEnd st idx with
      | true =>
        rw [(endTask_activeTasks st idx st' he).1 hf]
        simp [hf]
        omega
      | false =>
        rw [(endTask_activeTasks st idx st' he).2 hf]
        simp [hf]
  | beginSpan ctx annot =>
    cases hw : withSpan st ctx annot with
    | error e =>
      have hst : applyOp st (Op.beginSpan ctx annot) = st := by simp only [applyOp, hw]
      rw [hst]
      simp
    | ok r =>
      have hst : applyOp st (Op.beginSpan ctx annot) = r.1 := by simp only [applyOp, hw]
      rw [hst, withSpan_activeTasks st ctx annot r hw]
      simp
  | endSpan idx =>
    cases he : endSpan st idx with
    | error e =>
      have hst : applyOp st (Op.endSpan idx) = st := by simp only [applyOp, he]
      rw [hst]
      simp
    | ok st' =>
      have hst : applyOp st (Op.endSpan idx) = st' := by simp only [applyOp, he]
      rw [hst, endSpan_activeTasks st idx st' he]
      simp

theorem gauge_run (st : TraceState) (ops : List Op) :
    (run st ops).activeTasks =
      st.activeTasks + (countBeginTasks ops : Int) - (countFirstTimeTaskEnds st ops : Int) := by
  induction ops generalizing st with
  | nil => simp [run, countBeginTasks, countFirstTimeTaskEnds]
  | cons op rest ih =>
    rw [run, ih (applyOp st op), applyOp_activeTasks st op]
    cases op with
    | beginTask ctx name =>
      simp only [countBeginTasks, countFirstTimeTaskEnds]
      push_cast
      ring
    | endTask idx =>
      simp only [countBeginTasks, countFirstTimeTaskEnds]
      cases hf : firstTimeTaskEnd st idx with
      | true =>
        simp [hf]
        omega
      | false =>
        simp [hf]
    | beginSpan ctx annot =>
      simp only [countBeginTasks, countFirstTimeTaskEnds]
      push_cast
      ring
    | endSpan idx =>
      simp only [countBeginTasks, countFirstTimeTaskEnds]
      push_cast
      ring

/-- C4: after any sequence of calls starting at process start, the
active-task gauge equals the number of completed BeginTask calls minus
the number of completed first-time task ends; per call, the gauge moves
by +1 for a BeginTask, by -1 for a first-time task end, and by 0
otherwise. -/
theorem c4_active_task_gauge (ops : List Op) :
    (run initState ops).activeTasks =
      (countBeginTasks ops : Int) - (countFirstTimeTaskEnds initState ops : Int) ∧
    (∀ st : TraceState, ∀ op : Op,
      (applyOp st op).activeTasks =
        st.activeTasks +
          (match op with
           | Op.beginTask _ _ => (1 : Int)
           | Op.endTask idx => if firstTimeTaskEnd st idx then (-1 : Int) else 0
           | Op.beginSpan _ _ => 0
           | Op.endSpan _ => 0)) := by
  constructor
  · have h := gauge_run initState ops
    rw [h]
    show (0 : Int) + _ - _ = _
    ring
  · exact applyOp_activeTasks

/-- The task node `WithTask` allocates (trace.go lines 187-197). -/
def taskNewNode (st : TraceState) (ctx : Option Nat) (name : String) : TraceNode :=
  { id := genID st.nextId,
    annot := (uniqueConcurrentTaskName st.namer name).1,
    parentTask := findLiveParent st.nodes st.nodes.length (candidateParent st.nodes ctx),
    activeChildTasks := 0, parentSpan := none, activeChildSpan := none,
    startedAt := st.clock, endedAt := none }

theorem withTask_cases (st : TraceState) (ctx : Option Nat) (name : String) :
    (withTask st ctx name).2 = st.nodes.length ∧
    ((findLiveParent st.nodes st.nodes.length (candidateParent st.nodes ctx) = none ∧
       (withTask st ctx name).1.nodes = st.nodes ++ [taskNewNode st ctx name]) ∨
     (∃ p, findLiveParent st.nodes st.nodes.length (candidateParent st.nodes ctx) = some p ∧
       (withTask st ctx name).1.nodes =
         setNodeF (st.nodes ++ [taskNewNode st ctx name]) p
           (fun x => { x with activeChildTasks := x.activeChildTasks + 1 }))) := by
  refine ⟨rfl, ?_⟩
  cases hfl : findLiveParent st.nodes st.nodes.length (candidateParent st.nodes ctx) with
  | none =>
    left
    refine ⟨rfl, ?_⟩
    show (match findLiveParent st.nodes st.nodes.length (candidateParent st.nodes ctx) with
          | some p => setNodeF (st.nodes ++ [taskNewNode st ctx name]) p
              (fun x => { x with activeChildTasks := x.activeChildTasks + 1 })
          | none => st.nodes ++ [taskNewNode st ctx name]) = _
    rw [hfl]
  | some p =>
    right
    refine ⟨p, rfl, ?_⟩
    show (match findLiveParent st.nodes st.nodes.length (candidateParent st.nodes ctx) with
          | some q => setNodeF (st.nodes ++ [taskNewNode st ctx name]) q
              (fun x => { x with activeChildTasks := x.activeChildTasks + 1 })
          | none => st.nodes ++ [taskNewNode st ctx name]) = _
    rw [hfl]

theorem endTask_cases (st : TraceState) (idx : Nat) (st' : TraceState)
    (h : endTask st idx = Except.ok st') :
    st' = st ∨
    (∃ nd, st.nodes[idx]? = some nd ∧ nd.parentSpan = none ∧ nd.activeChildTasks = 0 ∧
      nd.endedAt = none ∧
      ((nd.parentTask = none ∧
         st' = taskEndState st idx
           (setNodeF st.nodes idx (fun x => { x with endedAt := some st.clock }))) ∨
       (∃ p, nd.parentTask = some p ∧
         st' = taskEndState st idx
           (setNodeF (setNodeF st.nodes idx (fun x => { x with endedAt := some st.clock })) p
             (fun x => { x with activeChildTasks := x.activeChildTasks - 1 }))))) := by
  cases hnd : st.nodes[idx]? with
  | none =>
    have he : endTask st idx = Except.ok st := by simp only [endTask, hnd]
    rw [he] at h
    injection h with h1
    exact Or.inl h1.symm
  | some nd =>
    cases hps : nd.parentSpan with
    | some q =>
      have hspT : nd.parentSpan.isSome = true := by rw [hps]; rfl
      have he : endTask st idx = Except.ok st := by simp only [endTask, hnd, hspT, if_true]
      rw [he] at h
      injection h with h1
      exact Or.inl h1.symm
    | none =>
      by_cases hcnt : nd.activeChildTasks ≠ 0
      · rw [endTask_err_children st idx nd hnd hps hcnt] at h
        exact Except.noConfusion h
      · have hcnt0 : nd.activeChildTasks = 0 := not_not.mp hcnt
        cases hsend : nd.endedAt with
        | some t =>
          have hsendT : nd.endedAt.isSome = true := by rw [hsend]; rfl
          rw [endTask_idem st idx nd hnd hps hcnt0 hsendT] at h
          injection h with h1
          exact Or.inl h1.symm
        | none =>
          cases hpt : nd.parentTask with
          | none =>
            rw [endTask_ok_root st idx nd hnd hps hcnt0 hsend hpt] at h
            injection h with h1
            exact Or.inr ⟨nd, rfl, hps, hcnt0, hsend, Or.inl ⟨hpt, h1.symm⟩⟩
          | some p =>
            have hsendF : nd.endedAt.isSome = false := by rw [hsend]; rfl
            have hspF : nd.parentSpan.isSome = false := by rw [hps]; rfl
            rw [endTask] at h
            rw [hnd] at h
            simp only [hspF, Bool.false_eq_true, if_false, if_neg hcnt, hsendF, hpt] at h
            by_cases hneg :
                ((setNodeF (setNodeF st.nodes idx (fun x => { x with endedAt := some st.clock })) p
                    (fun x => { x with activeChildTasks := x.activeChildTasks - 1 }))[p]?).any
                  (fun pn => decide (pn.activeChildTasks < 0)) = true
            · rw [if_pos hneg] at h
              exact Except.noConfusion h
            · rw [if_neg hneg] at h
              injection h with h1
              exact Or.inr ⟨nd, rfl, hps, hcnt0, hsend, Or.inr ⟨p, hpt, h1.symm⟩⟩

theorem endSpan_cases (st : TraceState) (idx : Nat) (st' : TraceState)
    (h : endSpan st idx = Except.ok st') :
    st' = st ∨
    (∃ nd p pn, st.nodes[idx]? = some nd ∧ nd.parentSpan = some p ∧ st.nodes[p]? = some pn ∧
      pn.activeChildSpan = some idx ∧ nd.activeChildSpan = none ∧ nd.endedAt = none ∧
      st' = spanEndState st idx p) := by
  cases hnd : st.nodes[idx]? with
  | none =>
    have he : endSpan st idx = Except.ok st := by simp only [endSpan, hnd]
    rw [he] at h
    injection h with h1
    exact Or.inl h1.symm
  | some nd =>
    cases hps : nd.parentSpan with
    | none =>
      have he : endSpan st idx = Except.ok st := by simp only [endSpan, hnd, hps]
      rw [he] at h
      injection h with h1
      exact Or.inl h1.symm
    | some p =>
      cases hpn : st.nodes[p]? with
      | none =>
        have he : endSpan st idx = Except.ok st := by simp only [endSpan, hnd, hps, hpn]
        rw [he] at h
        injection h with h1
        exact Or.inl h1.symm
      | some pn =>
        by_cases hg : pn.activeChildSpan ≠ some idx ∧ nd.endedAt = none
        · have he : endSpan st idx = Except.error TraceError.ActiveChildSpanChanged := by
            simp only [endSpan, hnd, hps, hpn, if_pos hg]
          rw [he] at h
          exact Except.noConfusion h
        · by_cases hacs : nd.activeChildSpan.isSome = true
          · have he : endSpan st idx = Except.error TraceError.SpanStillHasActiveChildSpan := by
              simp only [endSpan, hnd, hps, hpn, if_neg hg, hacs, if_true]
            rw [he] at h
            exact Except.noConfusion h
          · have hacsN : nd.activeChildSpan = none := Option.not_isSome_iff_eq_none.mp hacs
            by_cases hend : nd.endedAt.isSome = true
            · rw [endSpan_idem st idx nd p pn hnd hps hpn hend hacsN] at h
              injection h with h1
              exact Or.inl h1.symm
            · have hendF : nd.endedAt = none := Option.not_isSome_iff_eq_none.mp hend
              have hpacs : pn.activeChildSpan = some idx := by
                by_contra hc
                exact hg ⟨hc, hendF⟩
              rw [endSpan_ok st idx nd p pn hnd hps hpn hpacs hacsN hendF] at h
              injection h with h1
              exact Or.inr ⟨nd, p, pn, rfl, hps, hpn, hpacs, hacsN, hendF, h1.symm⟩

theorem withSpan_cases (st : TraceState) (ctx : Option Nat) (annot : String)
    (r : TraceState × Nat) (h : withSpan st ctx annot = Except.ok r) :
    ∃ c nd, ctx = some c ∧ st.nodes[c]? = some nd ∧ nd.activeChildSpan = none ∧
      r = (spanSuccState st c nd annot, st.nodes.length) := by
  cases ctx with
  | none =>
    rw [withSpan] at h
    exact Except.noConfusion h
  | some c =>
    cases hnd : st.nodes[c]? with
    | none =>
      have he : withSpan st (some c) annot = Except.error TraceError.NotInsideTask := by
        simp only [withSpan, hnd]
      rw [he] at h
      exact Except.noConfusion h
    | some nd =>
      by_cases hacs : nd.activeChildSpan = none
      · rw [withSpan_ok st c nd annot hnd hacs] at h
        injection h with h1
        exact ⟨c, nd, rfl, hnd, hacs, h1.symm⟩
      · rw [withSpan_err st c nd annot hnd hacs] at h
        exact Except.noConfusion h

theorem ancestorChain_none (nodes : List TraceNode) (fuel : Nat) :
    ancestorChain nodes fuel none = [] := by
  cases fuel with
  | zero => rfl
  | succ fuel => rfl

theorem findLiveParent_none (nodes : List TraceNode) (fuel : Nat) :
    findLiveParent nodes fuel none = none := by
  cases fuel with
  | zero => rfl
  | succ fuel => rfl

theorem findLiveParent_eq_find (nodes : List TraceNode) (hwf : wfNodes nodes = true)
    (fuel : Nat) :
    ∀ i, i < fuel → i < nodes.length →
      findLiveParent nodes fuel (some i) =
        List.find? (liveAt nodes) (ancestorChain nodes fuel (some i)) := by
  induction fuel with
  | zero =>
    intro i hi
    omega
  | succ fuel ih =>
    intro i hi hilen
    have hnd : nodes[i]? = some nodes[i] := List.getElem?_eq_getElem hilen
    simp only [findLiveParent, ancestorChain, hnd]
    cases hsend : nodes[i].endedAt with
    | none =>
      have hlive : liveAt nodes i = true := by
        simp only [liveAt, hnd, hsend]
        rfl
      simp only [Option.isSome_none, Bool.false_eq_true, if_false, List.find?, hlive]
    | some t =>
      have hlive : liveAt nodes i = false := by
        simp only [liveAt, hnd, hsend]
        rfl
      simp only [Option.isSome_some, if_true, List.find?, hlive]
      cases hpt : nodes[i].parentTask with
      | none => rw [findLiveParent_none, ancestorChain_none, List.find?]
      | some p =>
        have hplt : p < i := wf_parentTask_lt nodes hwf i nodes[i] hnd p hpt
        exact ih p (by omega) (by omega)

theorem candidateParent_lt (nodes : List TraceNode) (hwf : wfNodes nodes = true)
    (ctx : Option Nat) (i : Nat) (h : candidateParent nodes ctx = some i) :
    i < nodes.length := by
  cases ctx with
  | none =>
    rw [candidateParent] at h
    cases h
  | some c =>
    rw [candidateParent] at h
    cases hnd : nodes[c]? with
    | none =>
      simp only [hnd] at h
      cases h
    | some nd =>
      simp only [hnd] at h
      have hclen : c < nodes.length := getElem?_lt _ _ _ hnd
      by_cases hsp : nd.parentSpan.isSome = true
      · rw [if_pos hsp] at h
        have := wf_parentTask_lt nodes hwf c nd hnd i h
        omega
      · have hspF : nd.parentSpan.isSome = false := by
          cases hb : nd.parentSpan.isSome
          · rfl
          · exact absurd hb hsp
        rw [hspF] at h
        simp only [Bool.false_eq_true, if_false] at h
        injection h with h1
        omega

theorem findLiveParent_le (nodes : List TraceNode) (hwf : wfNodes nodes = true) (fuel : Nat) :
    ∀ i j, findLiveParent nodes fuel (some i) = some j → j ≤ i := by
  induction fuel with
  | zero =>
    intro i j h
    rw [findLiveParent] at h
    injection h with h1
    omega
  | succ fuel ih =>
    intro i j h
    rw [findLiveParent] at h
    cases hnd : nodes[i]? with
    | none =>
      simp only [hnd] at h
      injection h with h1
      omega
    | some nd =>
      simp only [hnd] at h
      by_cases hsend : nd.endedAt.isSome = true
      · rw [if_pos hsend] at h
        cases hpt : nd.parentTask with
        | none =>
          rw [hpt, findLiveParent_none] at h
          cases h
        | some p =>
          rw [hpt] at h
          have hplt : p < i := wf_parentTask_lt nodes hwf i nd hnd p hpt
          have := ih p j h
          omega
      · have hsendF : nd.endedAt.isSome = false := by
          cases hb : nd.endedAt.isSome
          · rfl
          · exact absurd hb hsend
        rw [hsendF] at h
        simp only [Bool.false_eq_true, if_false] at h
        injection h with h1
        omega

theorem setNodeF_pres_parentTask (nodes : List TraceNode) (i : Nat) (f : TraceNode → TraceNode)
    (hf : ∀ x, (f x).parentTask = x.parentTask) (j : Nat) (nd : TraceNode)
    (h : nodes[j]? = some nd) :
    ∃ nd', (setNodeF nodes i f)[j]? = some nd' ∧ nd'.parentTask = nd.parentTask := by
  by_cases hji : j = i
  · subst hji
    refine ⟨f nd, ?_, hf nd⟩
    rw [getElem?_setNodeF_self, h]
    rfl
  · exact ⟨nd, by rw [getElem?_setNodeF_ne _ _ _ _ hji, h], rfl⟩

/-- No operation ever mutates the `parentTask` field of an existing
node: each end/begin operation only touches `endedAt`,
`activeChildTasks` and `activeChildSpan` of existing nodes. -/
theorem applyOp_preserves_parentTask (st0 : TraceState) (op : Op) (j : Nat) (nd : TraceNode)
    (hnd : st0.nodes[j]? = some nd) :
    ((applyOp st0 op).nodes[j]?).map TraceNode.parentTask = some nd.parentTask := by
  have hjlen : j < st0.nodes.length := getElem?_lt _ _ _ hnd
  cases op with
  | beginTask ctx0 name0 =>
    obtain ⟨hidx0, hcase0⟩ := withTask_cases st0 ctx0 name0
    show ((withTask st0 ctx0 name0).1.nodes[j]?).map _ = _
    cases hcase0 with
    | inl h0 =>
      rw [h0.2, getElem?_append_lt _ _ _ hjlen, hnd]
      rfl
    | inr h0 =>
      obtain ⟨p, hfl, hnodes⟩ := h0
      rw [hnodes]
      obtain ⟨nd1, hnd1, hpres⟩ :=
        setNodeF_pres_parentTask (st0.nodes ++ [taskNewNode st0 ctx0 name0]) p
          (fun x => { x with activeChildTasks := x.activeChildTasks + 1 }) (fun x => rfl) j nd
          (by rw [getElem?_append_lt _ _ _ hjlen, hnd])
      rw [hnd1, Option.map_some', hpres]
  | endTask idx =>
    cases he : endTask st0 idx with
    | error e =>
      have happ : applyOp st0 (Op.endTask idx) = st0 := by simp only [applyOp, he]
      rw [happ, hnd]
      rfl
    | ok st1 =>
      have happ : applyOp st0 (Op.endTask idx) = st1 := by simp only [applyOp, he]
      rw [happ]
      rcases endTask_cases st0 idx st1 he with h1 | ⟨nd0, hnd0, hsp0, hcnt0, hend0, hmut⟩
      · rw [h1, hnd]
        rfl
      · rcases hmut with ⟨hpt, hst1⟩ | ⟨p, hpt, hst1⟩
        · obtain ⟨nd1, hnd1, hpres⟩ :=
            setNodeF_pres_parentTask st0.nodes idx
              (fun x => { x with endedAt := some st0.clock }) (fun x => rfl) j nd hnd
          rw [hst1]
          show ((setNodeF st0.nodes idx _)[j]?).map _ = _
          rw [hnd1, Option.map_some', hpres]
        · obtain ⟨nd1, hnd1, hpres1⟩ :=
            setNodeF_pres_parentTask st0.nodes idx
              (fun x => { x with endedAt := some st0.clock }) (fun x => rfl) j nd hnd
          obtain ⟨nd2, hnd2, hpres2⟩ :=
            setNodeF_pres_parentTask
              (setNodeF st0.nodes idx (fun x => { x with endedAt := some st0.clock })) p
              (fun x => { x with activeChildTasks := x.activeChildTasks - 1 }) (fun x => rfl)
              j nd1 hnd1
          rw [hst1]
          show ((setNodeF (setNodeF st0.nodes idx _) p _)[j]?).map _ = _
          rw [hnd2, Option.map_some', hpres2, hpres1]
  | beginSpan ctx0 annot0 =>
    cases hw : withSpan st0 ctx0 annot0 with
    | error e =>
      have happ : applyOp st0 (Op.beginSpan ctx0 annot0) = st0 := by simp only [applyOp, hw]
      rw [happ, hnd]
      rfl
    | ok r =>
      have happ : applyOp st0 (Op.beginSpan ctx0 annot0) = r.1 := by simp only [applyOp, hw]
      rw [happ]
      obtain ⟨c, nd0, hctx, hnd0, hacs0, hr⟩ := withSpan_cases st0 ctx0 annot0 r hw
      rw [hr]
      show ((setNodeF (st0.nodes ++ [spanNewNode st0 c nd0 annot0]) c _)[j]?).map _ = _
      obtain ⟨nd1, hnd1, hpres⟩ :=
        setNodeF_pres_parentTask (st0.nodes ++ [spanNewNode st0 c nd0 annot0]) c
          (fun x => { x with activeChildSpan := some st0.nodes.length }) (fun x => rfl) j nd
          (by rw [getElem?_append_lt _ _ _ hjlen, hnd])
      rw [hnd1, Option.map_some', hpres]
  | endSpan idx =>
    cases he : endSpan st0 idx with
    | error e =>
      have happ : applyOp st0 (Op.endSpan idx) = st0 := by simp only [applyOp, he]
      rw [happ, hnd]
      rfl
    | ok st1 =>
      have happ : applyOp st0 (Op.endSpan idx) = st1 := by simp only [applyOp, he]
      rw [happ]
      rcases endSpan_cases st0 idx st1 he with h1 | ⟨nd0, p, pn0, hnd0, hps0, hpn0, hpacs0, hacs0, hend0, hst1⟩
      · rw [h1, hnd]
        rfl
      · obtain ⟨nd1, hnd1, hpres1⟩ :=
          setNodeF_pres_parentTask st0.nodes p
            (fun x => { x with activeChildSpan := none }) (fun x => rfl) j nd hnd
        obtain ⟨nd2, hnd2, hpres2⟩ :=
          setNodeF_pres_parentTask
            (setNodeF st0.nodes p (fun x => { x with activeChildSpan := none })) idx
            (fun x => { x with endedAt := some st0.clock }) (fun x => rfl) j nd1 hnd1
        rw [hst1]
        show ((setNodeF (setNodeF st0.nodes p _) idx _)[j]?).map _ = _
        rw [hnd2, Option.map_some', hpres2, hpres1]

theorem withTask_resolves_nearest (st : TraceState) (ctx : Option Nat)
    (hwf : wfNodes st.nodes = true) :
    findLiveParent st.nodes st.nodes.length (candidateParent st.nodes ctx) =
      nearestLiveAncestor st.nodes (candidateParent st.nodes ctx) := by
  cases hcp : candidateParent st.nodes ctx with
  | none =>
    rw [findLiveParent_none, nearestLiveAncestor, ancestorChain_none, List.find?]
  | some i =>
    have hilen := candidateParent_lt st.nodes hwf ctx i hcp
    rw [nearestLiveAncestor]
    exact findLiveParent_eq_find st.nodes hwf st.nodes.length i hilen hilen

theorem findLiveParent_candidate_lt (st : TraceState) (ctx : Option Nat) (p : Nat)
    (hwf : wfNodes st.nodes = true)
    (hfl : findLiveParent st.nodes st.nodes.length (candidateParent st.nodes ctx) = some p) :
    p < st.nodes.length := by
  cases hcp : candidateParent st.nodes ctx with
  | none =>
    rw [hcp, findLiveParent_none] at hfl
    cases hfl
  | some i =>
    rw [hcp] at hfl
    have hilen := candidateParent_lt st.nodes hwf ctx i hcp
    have := findLiveParent_le st.nodes hwf st.nodes.length i p hfl
    omega

/-- C2: the node created by `WithTask` has its `parentTask` set at
creation time to the nearest ancestor that had not ended at that moment
(the first live node on the `parentTask` chain from the context's
candidate, or none); that ancestor's activeChildTasks is incremented by
exactly one while every other existing node is untouched; and no
operation ever mutates any existing node's `parentTask` afterwards. -/
theorem c2_parent_task_fixed_at_creation (st : TraceState) (ctx : Option Nat) (name : String)
    (hwf : wfNodes st.nodes = true) :
    (((withTask st ctx name).1.nodes[(withTask st ctx name).2]?).map TraceNode.parentTask =
      some (nearestLiveAncestor st.nodes (candidateParent st.nodes ctx))) ∧
    (∀ p pn, nearestLiveAncestor st.nodes (candidateParent st.nodes ctx) = some p →
      st.nodes[p]? = some pn →
      (withTask st ctx name).1.nodes[p]? =
        some { pn with activeChildTasks := pn.activeChildTasks + 1 }) ∧
    (∀ j nd, st.nodes[j]? = some nd →
      nearestLiveAncestor st.nodes (candidateParent st.nodes ctx) ≠ some j →
      (withTask st ctx name).1.nodes[j]? = some nd) ∧
    (∀ st0 : TraceState, ∀ op : Op, ∀ j : Nat, ∀ nd : TraceNode, st0.nodes[j]? = some nd →
      ((applyOp st0 op).nodes[j]?).map TraceNode.parentTask = some nd.parentTask) := by
  obtain ⟨hidx, hcase⟩ := withTask_cases st ctx name
  have hnear := withTask_resolves_nearest st ctx hwf
  refine ⟨?_, ?_, ?_, applyOp_preserves_parentTask⟩
  · rw [hidx]
    cases hcase with
    | inl h0 =>
      rw [h0.2, getElem?_append_len, Option.map_some']
      show some (findLiveParent st.nodes st.nodes.length (candidateParent st.nodes ctx)) = _
      rw [hnear]
    | inr h0 =>
      obtain ⟨p, hfl, hnodes⟩ := h0
      have hplen : p < st.nodes.length := findLiveParent_candidate_lt st ctx p hwf hfl
      rw [hnodes, getElem?_setNodeF_ne _ _ _ _ (by omega), getElem?_append_len,
        Option.map_some']
      show some (findLiveParent st.nodes st.nodes.length (candidateParent st.nodes ctx)) = _
      rw [hnear]
  · intro p pn hp hpn
    have hfl : findLiveParent st.nodes st.nodes.length (candidateParent st.nodes ctx) = some p := by
      rw [hnear, hp]
    cases hcase with
    | inl h0 =>
      rw [h0.1] at hfl
      cases hfl
    | inr h0 =>
      obtain ⟨q, hflq, hnodes⟩ := h0
      rw [hfl] at hflq
      injection hflq with hqp
      subst hqp
      have hplen : p < st.nodes.length := getElem?_lt _ _ _ hpn
      rw [hnodes, getElem?_setNodeF_self, getElem?_append_lt _ _ _ hplen, hpn]
      rfl
  · intro j nd hnd hne
    have hjlen : j < st.nodes.length := getElem?_lt _ _ _ hnd
    cases hcase with
    | inl h0 =>
      rw [h0.2, getElem?_append_lt _ _ _ hjlen, hnd]
    | inr h0 =>
      obtain ⟨p, hfl, hnodes⟩ := h0
      have hpj : j ≠ p := by
        intro hh
        subst hh
        rw [hnear] at hfl
        exact hne hfl
      rw [hnodes, getElem?_setNodeF_ne _ _ _ _ hpj, getElem?_append_lt _ _ _ hjlen, hnd]

/-- Witness scenario for C2: task "A" (0), child task "B" (1), "B"
already ended — beginning a task from B's context must skip the ended
"B" and attach to "A". -/
def c2WitSt : TraceState :=
  run initState [Op.beginTask none "A", Op.beginTask (some 0) "B", Op.endTask 1]

/-- Witness for C2: at the concrete scenario the resolved ancestor is
task 0 ("A"), skipping the ended task 1 ("B"), and the theorem's
conclusions hold there. -/
theorem c2_parent_task_fixed_at_creation_witness :
    wfNodes c2WitSt.nodes = true ∧
    nearestLiveAncestor c2WitSt.nodes (candidateParent c2WitSt.nodes (some 1)) = some 0 ∧
    ((((withTask c2WitSt (some 1) "C").1.nodes[(withTask c2WitSt (some 1) "C").2]?).map
        TraceNode.parentTask =
      some (nearestLiveAncestor c2WitSt.nodes (candidateParent c2WitSt.nodes (some 1)))) ∧
    (∀ p pn, nearestLiveAncestor c2WitSt.nodes (candidateParent c2WitSt.nodes (some 1)) = some p →
      c2WitSt.nodes[p]? = some pn →
      (withTask c2WitSt (some 1) "C").1.nodes[p]? =
        some { pn with activeChildTasks := pn.activeChildTasks + 1 }) ∧
    (∀ j nd, c2WitSt.nodes[j]? = some nd →
      nearestLiveAncestor c2WitSt.nodes (candidateParent c2WitSt.nodes (some 1)) ≠ some j →
      (withTask c2WitSt (some 1) "C").1.nodes[j]? = some nd) ∧
    (∀ st0 : TraceState, ∀ op : Op, ∀ j : Nat, ∀ nd : TraceNode, st0.nodes[j]? = some nd →
      ((applyOp st0 op).nodes[j]?).map TraceNode.parentTask = some nd.parentTask)) :=
  ⟨by decide, by decide, c2_parent_task_fixed_at_creation c2WitSt (some 1) "C" (by decide)⟩

theorem getElem?_append_cases (nodes : List TraceNode) (x : TraceNode) (i : Nat)
    (nd' : TraceNode) (h : (nodes ++ [x])[i]? = some nd') :
    (i < nodes.length ∧ nodes[i]? = some nd') ∨ (i = nodes.length ∧ nd' = x) := by
  have hlen : i < nodes.length + 1 := by
    have := getElem?_lt _ _ _ h
    simpa using this
  by_cases hi : i < nodes.length
  · left
    rw [getElem?_append_lt _ _ _ hi] at h
    exact ⟨hi, h⟩
  · right
    have hieq : i = nodes.length := by omega
    subst hieq
    rw [getElem?_append_len] at h
    injection h with h1
    exact ⟨rfl, h1.symm⟩

theorem getElem?_set_cases (nodes : List TraceNode) (q i : Nat) (f : TraceNode → TraceNode)
    (nd' : TraceNode) (h : (setNodeF nodes q f)[i]? = some nd') :
    ∃ nd, nodes[i]? = some nd ∧ ((i = q ∧ nd' = f nd) ∨ (i ≠ q ∧ nd' = nd)) := by
  by_cases hiq : i = q
  · subst hiq
    rw [getElem?_setNodeF_self] at h
    cases hnd : nodes[i]? with
    | none =>
      rw [hnd] at h
      cases h
    | some nd =>
      rw [hnd] at h
      injection h with h1
      exact ⟨nd, rfl, Or.inl ⟨rfl, h1.symm⟩⟩
  · rw [getElem?_setNodeF_ne _ _ _ _ hiq] at h
    exact ⟨nd', h, Or.inr ⟨hiq, rfl⟩⟩

theorem wfNodes_of_parts (nodes : List TraceNode)
    (h : ∀ i : Nat, ∀ nd : TraceNode, nodes[i]? = some nd →
      (∀ p, nd.parentTask = some p → p < i) ∧ (∀ p, nd.parentSpan = some p → p < i)) :
    wfNodes nodes = true := by
  rw [wfNodes, List.all_eq_true]
  intro i hi
  rw [List.mem_range] at hi
  show (match nodes[i]? with
        | some nd =>
          (match nd.parentTask with | some p => decide (p < i) | none => true) &&
          (match nd.parentSpan with | some p => decide (p < i) | none => true)
        | none => true) = true
  cases hnd : nodes[i]? with
  | none => rfl
  | some nd =>
    have hparts := h i nd hnd
    show ((match nd.parentTask with | some p => decide (p < i) | none => true) &&
          (match nd.parentSpan with | some p => decide (p < i) | none => true)) = true
    cases hpt : nd.parentTask with
    | none =>
      cases hps : nd.parentSpan with
      | none => rfl
      | some p => simp [hparts.2 p hps]
    | some p =>
      cases hps : nd.parentSpan with
      | none => simp [hparts.1 p hpt]
      | some q => simp [hparts.1 p hpt, hparts.2 q hps]

theorem wfNodes_parts (nodes : List TraceNode) (hwf : wfNodes nodes = true)
    (i : Nat) (nd : TraceNode) (h : nodes[i]? = some nd) :
    (∀ p, nd.parentTask = some p → p < i) ∧ (∀ p, nd.parentSpan = some p → p < i) :=
  ⟨fun p hp => wf_parentTask_lt nodes hwf i nd h p hp,
   fun p hp => wf_parentSpan_lt nodes hwf i nd h p hp⟩

theorem wfNodes_setNodeF (nodes : List TraceNode) (q : Nat) (f : TraceNode → TraceNode)
    (hf1 : ∀ x, (f x).parentTask = x.parentTask) (hf2 : ∀ x, (f x).parentSpan = x.parentSpan)
    (hwf : wfNodes nodes = true) : wfNodes (setNodeF nodes q f) = true := by
  apply wfNodes_of_parts
  intro i nd' h
  obtain ⟨nd, hnd, hcase⟩ := getElem?_set_cases nodes q i f nd' h
  have hparts := wfNodes_parts nodes hwf i nd hnd
  rcases hcase with ⟨_, hrfl⟩ | ⟨_, hrfl⟩
  · subst hrfl
    rw [hf1, hf2]
    exact hparts
  · subst hrfl
    exact hparts

theorem wfNodes_append_node (nodes : List TraceNode) (x : TraceNode)
    (hwf : wfNodes nodes = true)
    (h1 : ∀ p, x.parentTask = some p → p < nodes.length)
    (h2 : ∀ p, x.parentSpan = some p → p < nodes.length) :
    wfNodes (nodes ++ [x]) = true := by
  apply wfNodes_of_parts
  intro i nd' h
  rcases getElem?_append_cases nodes x i nd' h with ⟨hi, hnd⟩ | ⟨hi, hrfl⟩
  · exact wfNodes_parts nodes hwf i nd' hnd
  · subst hrfl
    subst hi
    exact ⟨h1, h2⟩

/-- The span-liveness invariant: every not-yet-ended span node is the
registered `activeChildSpan` of its parent node. -/
def SpanInv (st : TraceState) : Prop :=
  ∀ i : Nat, ∀ nd : TraceNode, ∀ p : Nat,
    st.nodes[i]? = some nd → nd.parentSpan = some p → nd.endedAt = none →
    ∃ pn, st.nodes[p]? = some pn ∧ pn.activeChildSpan = some i

/-- The invariant maintained by every operation: parent links point
strictly below the node, and the span-liveness property holds. -/
def TraceInv (st : TraceState) : Prop := wfNodes st.nodes = true ∧ SpanInv st

theorem inv_withTask (st : TraceState) (ctx : Option Nat) (name : String) (hinv : TraceInv st) :
    TraceInv (withTask st ctx name).1 := by
  obtain ⟨hwf, hsi⟩ := hinv
  obtain ⟨hidx, hcase⟩ := withTask_cases st ctx name
  have hnewPT : ∀ p, (taskNewNode st ctx name).parentTask = some p → p < st.nodes.length :=
    fun p hp => findLiveParent_candidate_lt st ctx p hwf hp
  have hnewPS : ∀ p, (taskNewNode st ctx name).parentSpan = some p → p < st.nodes.length :=
    fun p hp => Option.noConfusion hp
  cases hcase with
  | inl h0 =>
    constructor
    · rw [h0.2]
      exact wfNodes_append_node _ _ hwf hnewPT hnewPS
    · intro i nd p hnd hps hend
      rw [h0.2] at hnd
      rcases getElem?_append_cases _ _ _ _ hnd with ⟨hi, hnd'⟩ | ⟨hi, hrfl⟩
      · obtain ⟨pn, hpn, hacs⟩ := hsi i nd p hnd' hps hend
        have hplen : p < st.nodes.length := getElem?_lt _ _ _ hpn
        refine ⟨pn, ?_, hacs⟩
        rw [h0.2, getElem?_append_lt _ _ _ hplen]
        exact hpn
      · subst hrfl
        exact Option.noConfusion hps
  | inr h0 =>
    obtain ⟨q, hfl, hnodes⟩ := h0
    have hqlen : q < st.nodes.length := findLiveParent_candidate_lt st ctx q hwf hfl
    constructor
    · rw [hnodes]
      exact wfNodes_setNodeF _ q _ (fun x => rfl) (fun x => rfl)
        (wfNodes_append_node _ _ hwf hnewPT hnewPS)
    · intro i nd p hnd hps hend
      rw [hnodes] at hnd
      obtain ⟨nd1, hnd1, hc1⟩ := getElem?_set_cases _ q i _ nd hnd
      have hfields : nd1.parentSpan = some p ∧ nd1.endedAt = none ∧
          nd1.activeChildSpan = nd.activeChildSpan := by
        rcases hc1 with ⟨_, hrfl⟩ | ⟨_, hrfl⟩
        · subst hrfl
          exact ⟨hps, hend, rfl⟩
        · subst hrfl
          exact ⟨hps, hend, rfl⟩
      rcases getElem?_append_cases _ _ _ _ hnd1 with ⟨hi, hnd2⟩ | ⟨hi, hrfl⟩
      · obtain ⟨pn, hpn, hacs⟩ := hsi i nd1 p hnd2 hfields.1 hfields.2.1
        have hplen : p < st.nodes.length := getElem?_lt _ _ _ hpn
        rw [hnodes]
        by_cases hpq : p = q
        · subst hpq
          refine ⟨{ pn with activeChildTasks := pn.activeChildTasks + 1 }, ?_, hacs⟩
          rw [getElem?_setNodeF_self, getElem?_append_lt _ _ _ hplen, hpn]
          rfl
        · refine ⟨pn, ?_, hacs⟩
          rw [getElem?_setNodeF_ne _ _ _ _ hpq, getElem?_append_lt _ _ _ hplen]
          exact hpn
      · subst hrfl
        exact Option.noConfusion hfields.1

theorem inv_spanSucc (st : TraceState) (c : Nat) (nd0 : TraceNode) (annot : String)
    (hinv : TraceInv st) (hnd0 : st.nodes[c]? = some nd0)
    (hacs0 : nd0.activeChildSpan = none) : TraceInv (spanSuccState st c nd0 annot) := by
  obtain ⟨hwf, hsi⟩ := hinv
  have hclen : c < st.nodes.length := getElem?_lt _ _ _ hnd0
  have hnewPT : ∀ p, (spanNewNode st c nd0 annot).parentTask = some p → p < st.nodes.length := by
    intro p hp
    have hp' : (if nd0.parentSpan.isNone then some c else nd0.parentTask) = some p := hp
    by_cases hsp : nd0.parentSpan.isNone = true
    · rw [if_pos hsp] at hp'
      injection hp' with h1
      omega
    · rw [if_neg hsp] at hp'
      have := wf_parentTask_lt st.nodes hwf c nd0 hnd0 p hp'
      omega
  have hnewPS : ∀ p, (spanNewNode st c nd0 annot).parentSpan = some p → p < st.nodes.length := by
    intro p hp
    have hp' : (some c : Option Nat) = some p := hp
    injection hp' with h1
    omega
  constructor
  · show wfNodes (setNodeF (st.nodes ++ [spanNewNode st c nd0 annot]) c _) = true
    exact wfNodes_setNodeF _ c _ (fun x => rfl) (fun x => rfl)
      (wfNodes_append_node _ _ hwf hnewPT hnewPS)
  · intro i nd p hnd hps hend
    have hnd' : (setNodeF (st.nodes ++ [spanNewNode st c nd0 annot]) c
        (fun x => { x with activeChildSpan := some st.nodes.length }))[i]? = some nd := hnd
    obtain ⟨nd1, hnd1, hc1⟩ := getElem?_set_cases _ c i _ nd hnd'
    have hfields : nd1.parentSpan = some p ∧ nd1.endedAt = none := by
      rcases hc1 with ⟨_, hrfl⟩ | ⟨_, hrfl⟩
      · subst hrfl
        exact ⟨hps, hend⟩
      · subst hrfl
        exact ⟨hps, hend⟩
    rcases getElem?_append_cases _ _ _ _ hnd1 with ⟨hi, hnd2⟩ | ⟨hi, hrfl⟩
    · obtain ⟨pn, hpn, hacs⟩ := hsi i nd1 p hnd2 hfields.1 hfields.2
      have hplen : p < st.nodes.length := getElem?_lt _ _ _ hpn
      have hpi : p < i := wf_parentSpan_lt st.nodes hwf i nd1 hnd2 p hfields.1
      by_cases hpc : p = c
      · subst hpc
        rw [hpn] at hnd0
        injection hnd0 with h1
        rw [← h1] at hacs0
        rw [hacs0] at hacs
        cases hacs
      · refine ⟨pn, ?_, hacs⟩
        show (setNodeF (st.nodes ++ [spanNewNode st c nd0 annot]) c _)[p]? = some pn
        rw [getElem?_setNodeF_ne _ _ _ _ hpc, getElem?_append_lt _ _ _ hplen]
        exact hpn
    · subst hrfl
      rcases hc1 with ⟨hic, _⟩ | ⟨_, hrfl⟩
      · omega
      · subst hrfl
        have hp' : (some c : Option Nat) = some p := hps
        injection hp' with h1
        subst h1
        refine ⟨{ nd0 with activeChildSpan := some st.nodes.length }, ?_, ?_⟩
        · show (setNodeF (st.nodes ++ [spanNewNode st c nd0 annot]) c _)[c]? = _
          rw [getElem?_setNodeF_self, getElem?_append_lt _ _ _ hclen, hnd0]
          rfl
        · show some st.nodes.length = some i
          rw [hi]

theorem inv_endTask (st : TraceState) (idx : Nat) (st' : TraceState)
    (hinv : TraceInv st) (h : endTask st idx = Except.ok st') : TraceInv st' := by
  obtain ⟨hwf, hsi⟩ := hinv
  rcases endTask_cases st idx st' h with h1 | ⟨nd0, hnd0, hsp0, hcnt0, hend0, hmut⟩
  · rw [h1]
    exact ⟨hwf, hsi⟩
  · rcases hmut with ⟨hpt, hst1⟩ | ⟨q, hpt, hst1⟩
    · subst hst1
      constructor
      · exact wfNodes_setNodeF _ idx _ (fun x => rfl) (fun x => rfl) hwf
      · intro i nd p hnd hps hend
        obtain ⟨nd1, hnd1, hc1⟩ := getElem?_set_cases _ idx i _ nd hnd
        rcases hc1 with ⟨hi, hrfl⟩ | ⟨hi, hrfl⟩
        · subst hrfl
          exact Option.noConfusion hend
        · subst hrfl
          obtain ⟨pn, hpn, hacs⟩ := hsi i nd p hnd1 hps hend
          by_cases hpidx : p = idx
          · subst hpidx
            refine ⟨{ pn with endedAt := some st.clock }, ?_, hacs⟩
            show (setNodeF st.nodes p _)[p]? = _
            rw [getElem?_setNodeF_self, hpn]
            rfl
          · refine ⟨pn, ?_, hacs⟩
            show (setNodeF st.nodes idx _)[p]? = _
            rw [getElem?_setNodeF_ne _ _ _ _ hpidx]
            exact hpn
    · subst hst1
      have hqlt : q < idx := wf_parentTask_lt st.nodes hwf idx nd0 hnd0 q hpt
      constructor
      · exact wfNodes_setNodeF _ q _ (fun x => rfl) (fun x => rfl)
          (wfNodes_setNodeF _ idx _ (fun x => rfl) (fun x => rfl) hwf)
      · intro i nd p hnd hps hend
        obtain ⟨nd1, hnd1, hc1⟩ := getElem?_set_cases _ q i _ nd hnd
        obtain ⟨nd2, hnd2, hc2⟩ := getElem?_set_cases _ idx i _ nd1 hnd1
        have hii : i ≠ idx := by
          intro hii
          subst hii
          rcases hc2 with ⟨_, hrfl2⟩ | ⟨hne, _⟩
          · subst hrfl2
            rcases hc1 with ⟨_, hrfl1⟩ | ⟨_, hrfl1⟩
            · subst hrfl1
              exact Option.noConfusion hend
            · subst hrfl1
              exact Option.noConfusion hend
          · exact hne rfl
        have hnd12 : nd1 = nd2 := by
          rcases hc2 with ⟨hi2, _⟩ | ⟨_, hrfl2⟩
          · exact absurd hi2 hii
          · exact hrfl2
        subst hnd12
        have hfields : nd1.parentSpan = some p ∧ nd1.endedAt = none ∧
            nd1.activeChildSpan = nd.activeChildSpan := by
          rcases hc1 with ⟨_, hrfl⟩ | ⟨_, hrfl⟩
          · subst hrfl
            exact ⟨hps, hend, rfl⟩
          · subst hrfl
            exact ⟨hps, hend, rfl⟩
        obtain ⟨pn, hpn, hacs⟩ := hsi i nd1 p hnd2 hfields.1 hfields.2.1
        by_cases hpq : p = q
        · subst hpq
          refine ⟨{ pn with activeChildTasks := pn.activeChildTasks - 1 }, ?_, hacs⟩
          show (setNodeF (setNodeF st.nodes idx _) p _)[p]? = _
          rw [getElem?_setNodeF_self, getElem?_setNodeF_ne _ _ _ _ (by omega), hpn]
          rfl
        · by_cases hpidx : p = idx
          · subst hpidx
            refine ⟨{ pn with endedAt := some st.clock }, ?_, hacs⟩
            show (setNodeF (setNodeF st.nodes p _) q _)[p]? = _
            rw [getElem?_setNodeF_ne _ _ _ _ (by omega), getElem?_setNodeF_self, hpn]
            rfl
          · refine ⟨pn, ?_, hacs⟩
            show (setNodeF (setNodeF st.nodes idx _) q _)[p]? = _
            rw [getElem?_setNodeF_ne _ _ _ _ hpq, getElem?_setNodeF_ne _ _ _ _ hpidx]
            exact hpn

theorem inv_endSpan (st : TraceState) (idx : Nat) (st' : TraceState)
    (hinv : TraceInv st) (h : endSpan st idx = Except.ok st') : TraceInv st' := by
  obtain ⟨hwf, hsi⟩ := hinv
  rcases endSpan_cases st idx st' h with h1 | ⟨nd0, p0, pn0, hnd0, hps0, hpn0, hpacs0, hacs0, hend0, hst1⟩
  · rw [h1]
    exact ⟨hwf, hsi⟩
  · subst hst1
    have hp0lt : p0 < idx := wf_parentSpan_lt st.nodes hwf idx nd0 hnd0 p0 hps0
    constructor
    · exact wfNodes_setNodeF _ idx _ (fun x => rfl) (fun x => rfl)
        (wfNodes_setNodeF _ p0 _ (fun x => rfl) (fun x => rfl) hwf)
    · intro i nd p hnd hps hend
      obtain ⟨nd1, hnd1, hc1⟩ := getElem?_set_cases _ idx i _ nd hnd
      obtain ⟨nd2, hnd2, hc2⟩ := getElem?_set_cases _ p0 i _ nd1 hnd1
      have hii : i ≠ idx := by
        intro hii
        subst hii
        rcases hc1 with ⟨_, hrfl1⟩ | ⟨hne, _⟩
        · subst hrfl1
          exact Option.noConfusion hend
        · exact hne rfl
      have hnd01 : nd = nd1 := by
        rcases hc1 with ⟨hi1, _⟩ | ⟨_, hrfl1⟩
        · exact absurd hi1 hii
        · exact hrfl1
      subst hnd01
      have hfields : nd2.parentSpan = some p ∧ nd2.endedAt = none := by
        rcases hc2 with ⟨_, hrfl⟩ | ⟨_, hrfl⟩
        · subst hrfl
          exact ⟨hps, hend⟩
        · subst hrfl
          exact ⟨hps, hend⟩
      obtain ⟨pn, hpn, hacs⟩ := hsi i nd2 p hnd2 hfields.1 hfields.2
      have hip0 : i ≠ p0 ∨ i = p0 := by omega
      by_cases hpp0 : p = p0
      · subst hpp0
        rw [hpn] at hpn0
        injection hpn0 with h1
        rw [← h1] at hpacs0
        rw [hacs] at hpacs0
        injection hpacs0 with h2
        exact absurd h2 hii
      · by_cases hpidx : p = idx
        · subst hpidx
          rw [hpn] at hnd0
          injection hnd0 with h1
          rw [← h1] at hacs0
          rw [hacs0] at hacs
          cases hacs
        · refine ⟨pn, ?_, hacs⟩
          show (setNodeF (setNodeF st.nodes p0 _) idx _)[p]? = _
          rw [getElem?_setNodeF_ne _ _ _ _ hpidx, getElem?_setNodeF_ne _ _ _ _ hpp0]
          exact hpn

theorem inv_applyOp (st : TraceState) (op : Op) (hinv : TraceInv st) :
    TraceInv (applyOp st op) := by
  cases op with
  | beginTask ctx name => exact inv_withTask st ctx name hinv
  | endTask idx =>
    cases he : endTask st idx with
    | error e =>
      have happ : applyOp st (Op.endTask idx) = st := by simp only [applyOp, he]
      rw [happ]
      exact hinv
    | ok st' =>
      have happ : applyOp st (Op.endTask idx) = st' := by simp only [applyOp, he]
      rw [happ]
      exact inv_endTask st idx st' hinv he
  | beginSpan ctx annot =>
    cases hw : withSpan st ctx annot with
    | error e =>
      have happ : applyOp st (Op.beginSpan ctx annot) = st := by simp only [applyOp, hw]
      rw [happ]
      exact hinv
    | ok r =>
      obtain ⟨c, nd0, hctx, hnd0, hacs0, hr⟩ := withSpan_cases st ctx annot r hw
      have happ : applyOp st (Op.beginSpan ctx annot) = r.1 := by simp only [applyOp, hw]
      rw [happ, hr]
      exact inv_spanSucc st c nd0 annot hinv hnd0 hacs0
  | endSpan idx =>
    cases he : endSpan st idx with
    | error e =>
      have happ : applyOp st (Op.endSpan idx) = st := by simp only [applyOp, he]
      rw [happ]
      exact hinv
    | ok st' =>
      have happ : applyOp st (Op.endSpan idx) = st' := by simp only [applyOp, he]
      rw [happ]
      exact inv_endSpan st idx st' hinv he

theorem inv_run (ops : List Op) : ∀ st : TraceState, TraceInv st → TraceInv (run st ops) := by
  induction ops with
  | nil =>
    intro st hinv
    exact hinv
  | cons op rest ih =>
    intro st hinv
    exact ih (applyOp st op) (inv_applyOp st op hinv)

theorem inv_initState : TraceInv initState := by
  constructor
  · rfl
  · intro i nd p hnd hps hend
    cases hnd

theorem reachable_inv (st : TraceState) (hr : Reachable st) : TraceInv st := by
  obtain ⟨ops, hops⟩ := hr
  rw [← hops]
  exact inv_run ops initState inv_initState

/-- C10: in every reachable state, a not-yet-ended span is its parent
node's registered activeChildSpan, so the "impl error: activeChildSpan
should not change" panic branch of the span end operation never fires. -/
theorem c10_active_child_span_stable (st : TraceState) (hr : Reachable st) :
    (∀ i : Nat, ∀ nd : TraceNode, ∀ p : Nat,
      st.nodes[i]? = some nd → nd.parentSpan = some p → nd.endedAt = none →
      ∃ pn, st.nodes[p]? = some pn ∧ pn.activeChildSpan = some i) ∧
    (∀ idx : Nat, endSpan st idx ≠ Except.error TraceError.ActiveChildSpanChanged) := by
  obtain ⟨hwf, hsi⟩ := reachable_inv st hr
  refine ⟨hsi, ?_⟩
  intro idx h
  cases hnd : st.nodes[idx]? with
  | none =>
    have he : endSpan st idx = Except.ok st := by simp only [endSpan, hnd]
    rw [he] at h
    exact Except.noConfusion h
  | some nd =>
    cases hps : nd.parentSpan with
    | none =>
      have he : endSpan st idx = Except.ok st := by simp only [endSpan, hnd, hps]
      rw [he] at h
      exact Except.noConfusion h
    | some p =>
      cases hpn : st.nodes[p]? with
      | none =>
        have he : endSpan st idx = Except.ok st := by simp only [endSpan, hnd, hps, hpn]
        rw [he] at h
        exact Except.noConfusion h
      | some pn =>
        by_cases hg : pn.activeChildSpan ≠ some idx ∧ nd.endedAt = none
        · obtain ⟨pn', hpn', hacs'⟩ := hsi idx nd p hnd hps hg.2
          rw [hpn] at hpn'
          injection hpn' with h1
          exact hg.1 (by rw [h1]; exact hacs')
        · by_cases hacs : nd.activeChildSpan.isSome = true
          · have he : endSpan st idx = Except.error TraceError.SpanStillHasActiveChildSpan := by
              simp only [endSpan, hnd, hps, hpn, if_neg hg, hacs, if_true]
            rw [he] at h
            injection h with h1
            cases h1
          · have hacsN := Option.not_isSome_iff_eq_none.mp hacs
            by_cases hend : nd.endedAt.isSome = true
            · rw [endSpan_idem st idx nd p pn hnd hps hpn hend hacsN] at h
              exact Except.noConfusion h
            · have hendF := Option.not_isSome_iff_eq_none.mp hend
              have hpacs : pn.activeChildSpan = some idx := by
                by_contra hc
                exact hg ⟨hc, hendF⟩
              rw [endSpan_ok st idx nd p pn hnd hps hpn hpacs hacsN hendF] at h
              exact Except.noConfusion h

/-- Witness for C10 at a concrete reachable state (the A/B/y/x
ancestry scenario). -/
theorem c10_active_child_span_stable_witness :
    Reachable ancestrySt ∧
    ((∀ i : Nat, ∀ nd : TraceNode, ∀ p : Nat,
      ancestrySt.nodes[i]? = some nd → nd.parentSpan = some p → nd.endedAt = none →
      ∃ pn, ancestrySt.nodes[p]? = some pn ∧ pn.activeChildSpan = some i) ∧
    (∀ idx : Nat, endSpan ancestrySt idx ≠ Except.error TraceError.ActiveChildSpanChanged)) :=
  ⟨⟨ancestryOps, rfl⟩, c10_active_child_span_stable ancestrySt ⟨ancestryOps, rfl⟩⟩

/-- C7: in a reachable state, ending a span whose own activeChildSpan is
set fails fatally with the span-still-has-active-child panic (producing
no state change): span nesting is strictly LIFO. -/
theorem c7_lifo_span_end (st : TraceState) (idx : Nat) (nd : TraceNode) (p : Nat)
    (hr : Reachable st) (hnd : st.nodes[idx]? = some nd) (hps : nd.parentSpan = some p)
    (hacs : nd.activeChildSpan ≠ none) :
    endSpan st idx = Except.error TraceError.SpanStillHasActiveChildSpan := by
  obtain ⟨hwf, hsi⟩ := reachable_inv st hr
  have hplt := wf_parentSpan_lt st.nodes hwf idx nd hnd p hps
  have hilen := getElem?_lt _ _ _ hnd
  have hplen : p < st.nodes.length := by omega
  have hpn : st.nodes[p]? = some st.nodes[p] := List.getElem?_eq_getElem hplen
  have hguard : st.nodes[p].activeChildSpan = some idx ∨ nd.endedAt ≠ none := by
    cases hsend : nd.endedAt with
    | none =>
      obtain ⟨pn', hpn', hacs'⟩ := hsi idx nd p hnd hps hsend
      rw [hpn] at hpn'
      injection hpn' with h1
      left
      rw [h1]
      exact hacs'
    | some t =>
      right
      intro hh
      exact Option.noConfusion hh
  exact endSpan_err_child st idx nd p st.nodes[p] hnd hps hpn hguard hacs

/-- The span node "y" of the ancestry scenario, whose child span "x" is
still active. -/
def c7WitNd : TraceNode :=
  match ancestrySt.nodes[2]? with
  | some nd => nd
  | none => dummyNode

/-- Witness for C7: in the A/B/y/x scenario, ending span "y" (index 2)
while its child "x" (index 3) is active fails with the
span-still-has-active-child panic. -/
theorem c7_lifo_span_end_witness :
    Reachable ancestrySt ∧ ancestrySt.nodes[2]? = some c7WitNd ∧
    c7WitNd.parentSpan = some 1 ∧ c7WitNd.activeChildSpan ≠ none ∧
    endSpan ancestrySt 2 = Except.error TraceError.SpanStillHasActiveChildSpan :=
  ⟨⟨ancestryOps, rfl⟩, by decide, by decide, by decide,
   c7_lifo_span_end ancestrySt 2 c7WitNd 1 ⟨ancestryOps, rfl⟩ (by decide) (by decide) (by decide)⟩
